import Mathlib

/-!
Shallow embedding of the stacker build engine (`build.go`, the base-layer
importer file, `grab.go`) and proofs about it.

Conventions:
* Go strings are Lean `String`s; digests are their `String()` form.
* Go machine integers that appear (blob sizes) are `Nat`.
* Fallible Go functions return `Except String α` carrying the formatted
  error message the Go code builds.
* The effectful build pipeline is embedded as a writer-style monad
  producing a trace of externally visible events (storage operations,
  OCI reference updates, image copies, subprocess invocations), with the
  outcomes of external collaborators supplied by an `Env` record, since
  the collaborators (storage driver, image copy, umoci) are external to
  the engine.
-/

namespace Stacker

/-! ## Small string/path helpers mirroring the Go standard library calls
used by the source. All are built over `List Char` so that the kernel
can evaluate them on concrete inputs. -/

/-- Whether the first list occurs at the head of the second. -/
def chMatch : List Char → List Char → Bool
  | [], _ => true
  | _ :: _, [] => false
  | a :: as, b :: bs => a == b && chMatch as bs

/-- Go `strings.HasPrefix`. -/
def strStarts (s pre : String) : Bool := chMatch pre.data s.data

/-- Go `strings.HasSuffix`. -/
def strEnds (s suf : String) : Bool := chMatch suf.data.reverse s.data.reverse

/-- Worker for `strSplit`; the fuel (an upper bound on the remaining
length) keeps the recursion structural. -/
def splitGo (sep : List Char) : Nat → List Char → List Char → List (List Char)
  | _, [], acc => [acc.reverse]
  | 0, rem, acc => [acc.reverse ++ rem]
  | fuel + 1, c :: rest, acc =>
    if sep.length > 0 && chMatch sep (c :: rest) then
      acc.reverse :: splitGo sep fuel (List.drop (sep.length - 1) rest) []
    else
      splitGo sep fuel rest (c :: acc)

/-- Go `strings.Split(s, sep)` for a non-empty separator: the slices
between the non-overlapping occurrences of `sep`. -/
def strSplit (s sep : String) : List String :=
  (splitGo sep.data s.data.length s.data []).map (fun l => String.mk l)

/-- Go `strings.Split(s, ":")[0]`: the portion of `s` before the first
`':'` (the whole string when there is no `':'`). -/
def splitColonHead (s : String) : String :=
  (strSplit s ":").headD ""

/-- Drop all trailing `'/'` characters of a string. -/
def dropTrailingSlashes (s : String) : String :=
  String.mk ((s.data.reverse.dropWhile (fun c => c = '/')).reverse)

/-- Go `path.Base`: last element of the path after removing trailing
slashes; `"."` for the empty path, `"/"` for an all-slash path. -/
def pathBase (s : String) : String :=
  if s = "" then "."
  else
    let t := dropTrailingSlashes s
    if t = "" then "/"
    else ((strSplit t "/").getLastD t)

/-- Go `path.Join` on already-clean segments (the engine only joins
clean literals and configuration directories). -/
def pathJoin2 (a b : String) : String := a ++ "/" ++ b

def pathJoin3 (a b c : String) : String := a ++ "/" ++ b ++ "/" ++ c

/-- Go `strings.Replace(s, ":", "_", 1)`: replace the first occurrence
of `':'` by `'_'`. -/
def replaceFirstColon (s : String) : String :=
  match strSplit s ":" with
  | [] => s
  | [x] => x
  | x :: y :: rest => x ++ "_" ++ String.intercalate ":" (y :: rest)

/-- First index of a character in a list. -/
def chIdxOf? (c : Char) : List Char → Option Nat
  | [] => none
  | x :: xs => if x == c then some 0 else (chIdxOf? c xs).map (fun i => i + 1)

/-- Last index of a character in a list (Go `strings.LastIndex` for a
one-character separator). -/
def lastIdxOf (c : Char) (l : List Char) : Option Nat :=
  match chIdxOf? c l.reverse with
  | none => none
  | some j => some (l.length - 1 - j)

/-- Cut a list at the first occurrence of a character: the parts before
and after it (Go `split(s, sep, true)` for a one-character separator). -/
def chCut (c : Char) : List Char → Option (List Char × List Char)
  | [] => none
  | x :: xs =>
    if x == c then some ([], xs)
    else (chCut c xs).map (fun p => (x :: p.1, p.2))

/-- First index of a character sequence in a list (Go `strings.Index`). -/
def chIdxOfSeq (pat : List Char) : List Char → Option Nat
  | [] => if pat.isEmpty then some 0 else none
  | c :: rest =>
    if chMatch pat (c :: rest) then some 0
    else (chIdxOfSeq pat rest).map (fun i => i + 1)

def chHas (l : List Char) (c : Char) : Bool := (chIdxOf? c l).isSome

/-- Hex digit character, lowercase. -/
def hexDigit (n : Nat) : Char :=
  if n < 10 then Char.ofNat (48 + n) else Char.ofNat (87 + n)

/-- Go `strconv.Quote` as used in `net/url` error messages: double
quotes around the text, with `"` and `\` backslash-escaped, the named
escapes for the usual control characters, and `\xNN` for the other
control bytes. (Non-ASCII printable characters pass through; the URLs
the engine handles are ASCII.) -/
def quoteChar (c : Char) : List Char :=
  if c == '"' then ['\\', '"']
  else if c == '\\' then ['\\', '\\']
  else if c.toNat == 7 then ['\\', 'a']
  else if c.toNat == 8 then ['\\', 'b']
  else if c.toNat == 9 then ['\\', 't']
  else if c.toNat == 10 then ['\\', 'n']
  else if c.toNat == 11 then ['\\', 'v']
  else if c.toNat == 12 then ['\\', 'f']
  else if c.toNat == 13 then ['\\', 'r']
  else if c.toNat < 32 || c.toNat == 127 then
    ['\\', 'x', hexDigit (c.toNat / 16), hexDigit (c.toNat % 16)]
  else [c]

def goQuote (s : String) : String :=
  "\"" ++ String.mk (s.data.foldr (fun c acc => quoteChar c ++ acc) []) ++ "\""

/-! ## Model of Go `net/url.Parse` (the fields `tagFromSkopeoUrl`
observes: `Host`, `Path`, and the error). The pipeline follows
`net/url`'s `Parse`/`parse` for non-request URLs: reject control bytes,
split off the fragment and query, parse the scheme, parse the authority
(userinfo, host with port validation and percent-escape rules) when the
remainder starts with `//`, and percent-decode the path. Opaque URLs
(`scheme:rest` without `//`) leave `Host` and `Path` empty, as Go does;
the unobserved fields (scheme, query, fragment, userinfo, opaque) are
validated where Go validates them but not stored. Percent-decoded bytes
at or above 0x80 are modelled as the character of the byte's value. -/

structure GoURL where
  Host : String
  Path : String
deriving DecidableEq, Repr

/-- A control byte per `stringContainsCTLByte`: below 0x20 or 0x7f. -/
def stringContainsCTL (s : String) : Bool :=
  s.data.any (fun c => c.toNat < 32 || c.toNat == 127)

def isSchemeLetter (c : Char) : Bool :=
  ('a' ≤ c && c ≤ 'z') || ('A' ≤ c && c ≤ 'Z')

def isSchemeCont (c : Char) : Bool :=
  ('0' ≤ c && c ≤ '9') || c == '+' || c == '-' || c == '.'

/-- Go `getScheme`: scan for a `scheme:` head of letters then
letters/digits/`+-.`; a `:` in first position is an error, any other
invalid character before a `:` means the URL has no scheme. -/
def getSchemeAux (orig : List Char) : Nat → List Char → Except String (String × String)
  | _, [] => Except.ok ("", String.mk orig)
  | i, c :: rest =>
    if isSchemeLetter c then getSchemeAux orig (i + 1) rest
    else if isSchemeCont c then
      if i == 0 then Except.ok ("", String.mk orig)
      else getSchemeAux orig (i + 1) rest
    else if c == ':' then
      if i == 0 then Except.error "missing protocol scheme"
      else Except.ok (String.mk (orig.take i), String.mk (orig.drop (i + 1)))
    else Except.ok ("", String.mk orig)

def getScheme (s : String) : Except String (String × String) :=
  getSchemeAux s.data 0 s.data

def isHexDigit (c : Char) : Bool :=
  ('0' ≤ c && c ≤ '9') || ('a' ≤ c && c ≤ 'f') || ('A' ≤ c && c ≤ 'F')

def unhex (c : Char) : Nat :=
  if '0' ≤ c && c ≤ '9' then c.toNat - 48
  else if 'a' ≤ c && c ≤ 'f' then c.toNat - 87
  else if 'A' ≤ c && c ≤ 'F' then c.toNat - 55
  else 0

/-- The escape contexts of `net/url.unescape` the engine's URLs can
reach. Only the host and zone contexts restrict which characters and
escapes may appear; the others only validate `%`-escapes. -/
inductive EscMode where
  | path
  | host
  | zone
  | userinfo
  | fragment
deriving DecidableEq, Repr

/-- Go `shouldEscape(c, encodeHost)`: the characters that may appear
raw in a host are alphanumerics, the marks `-._~`, the sub-delims
`!$&'()*+,;=` and `:[]<>"`. -/
def hostShouldEscape (c : Char) : Bool :=
  if ('a' ≤ c && c ≤ 'z') || ('A' ≤ c && c ≤ 'Z') || ('0' ≤ c && c ≤ '9') then false
  else if c == '!' || c == '$' || c == '&' || c == '\'' || c == '(' || c == ')' ||
      c == '*' || c == '+' || c == ',' || c == ';' || c == '=' || c == ':' ||
      c == '[' || c == ']' || c == '<' || c == '>' || c == '"' then false
  else if c == '-' || c == '_' || c == '.' || c == '~' then false
  else true

/-- Go `net/url.unescape`: validate and decode `%`-escapes. An escape
not followed by two hex digits is an `invalid URL escape`; in a host,
escapes of ASCII bytes other than `%25` are rejected too, and raw
ASCII characters outside the allowed host set are an `invalid
character ... in host name`; a zone accepts `%25`, an escaped space,
and escapes of allowed host characters. -/
def unescapeGo (m : EscMode) : List Char → Except String (List Char)
  | [] => Except.ok []
  | '%' :: rest =>
    match rest with
    | h1 :: h2 :: rest2 =>
      if !(isHexDigit h1 && isHexDigit h2) then
        Except.error ("invalid URL escape " ++ goQuote (String.mk ['%', h1, h2]))
      else if m == EscMode.host && unhex h1 < 8 && !(h1 == '2' && h2 == '5') then
        Except.error ("invalid URL escape " ++ goQuote (String.mk ['%', h1, h2]))
      else if m == EscMode.zone &&
          (!(h1 == '2' && h2 == '5') && unhex h1 * 16 + unhex h2 ≠ 32 &&
            hostShouldEscape (Char.ofNat (unhex h1 * 16 + unhex h2))) then
        Except.error ("invalid URL escape " ++ goQuote (String.mk ['%', h1, h2]))
      else
        (unescapeGo m rest2).map (fun l => Char.ofNat (unhex h1 * 16 + unhex h2) :: l)
    | _ => Except.error ("invalid URL escape " ++ goQuote (String.mk ('%' :: rest)))
  | c :: rest =>
    if (m == EscMode.host || m == EscMode.zone) && c.toNat < 128 && hostShouldEscape c then
      Except.error ("invalid character " ++ goQuote (String.mk [c]) ++ " in host name")
    else (unescapeGo m rest).map (fun l => c :: l)

/-- Go `validOptionalPort`: empty, or `:` followed by digits only. -/
def validOptionalPort (p : List Char) : Bool :=
  match p with
  | [] => true
  | c :: digits => c == ':' && digits.all (fun d => '0' ≤ d && d ≤ '9')

/-- Go `parseHost`: bracketed IPv6 literals need a closing `]`,
an optional port must be numeric, a `%25` starts a zone, and the host
is unescaped in host mode. -/
def parseHost (host : String) : Except String String :=
  let hs := host.data
  if strStarts host "[" then
    match lastIdxOf ']' hs with
    | none => Except.error "missing ']' in host"
    | some i =>
      let colonPort := hs.drop (i + 1)
      if !(validOptionalPort colonPort) then
        Except.error ("invalid port " ++ goQuote (String.mk colonPort) ++ " after host")
      else
        match chIdxOfSeq ['%', '2', '5'] (hs.take i) with
        | some zone =>
          match unescapeGo EscMode.host (hs.take zone) with
          | Except.error e => Except.error e
          | Except.ok h1 =>
            match unescapeGo EscMode.zone ((hs.take i).drop zone) with
            | Except.error e => Except.error e
            | Except.ok h2 =>
              match unescapeGo EscMode.host (hs.drop i) with
              | Except.error e => Except.error e
              | Except.ok h3 => Except.ok (String.mk (h1 ++ h2 ++ h3))
        | none =>
          match unescapeGo EscMode.host hs with
          | Except.error e => Except.error e
          | Except.ok h => Except.ok (String.mk h)
  else
    match lastIdxOf ':' hs with
    | some i =>
      if !(validOptionalPort (hs.drop i)) then
        Except.error ("invalid port " ++ goQuote (String.mk (hs.drop i)) ++ " after host")
      else
        match unescapeGo EscMode.host hs with
        | Except.error e => Except.error e
        | Except.ok h => Except.ok (String.mk h)
    | none =>
      match unescapeGo EscMode.host hs with
      | Except.error e => Except.error e
      | Except.ok h => Except.ok (String.mk h)

/-- Go `validUserinfo`: alphanumerics and `-._:~!$&'()*+,;=%@`. -/
def validUserinfoChar (c : Char) : Bool :=
  ('A' ≤ c && c ≤ 'Z') || ('a' ≤ c && c ≤ 'z') || ('0' ≤ c && c ≤ '9') ||
  c == '-' || c == '.' || c == '_' || c == ':' || c == '~' || c == '!' ||
  c == '$' || c == '&' || c == '\'' || c == '(' || c == ')' || c == '*' ||
  c == '+' || c == ',' || c == ';' || c == '=' || c == '%' || c == '@'

/-- Userinfo unescape in user-password mode, keeping only the error. -/
def userinfoEscOk (l : List Char) : Except String Unit :=
  match unescapeGo EscMode.userinfo l with
  | Except.error e => Except.error e
  | Except.ok _ => Except.ok ()

/-- Go `parseAuthority`: the host is everything after the last `@` and
is parsed first; the userinfo before it must be made of valid userinfo
characters and valid escapes (username up to the first `:`, then the
password). The engine only observes the host. -/
def parseAuthority (authority : String) : Except String String :=
  match lastIdxOf '@' authority.data with
  | none => parseHost authority
  | some i =>
    match parseHost (String.mk (authority.data.drop (i + 1))) with
    | Except.error e => Except.error e
    | Except.ok host =>
      let userinfo := authority.data.take i
      if !(userinfo.all validUserinfoChar) then
        Except.error "net/url: invalid userinfo"
      else
        match chCut ':' userinfo with
        | none =>
          match userinfoEscOk userinfo with
          | Except.error e => Except.error e
          | Except.ok _ => Except.ok host
        | some p =>
          match userinfoEscOk p.1 with
          | Except.error e => Except.error e
          | Except.ok _ =>
            match userinfoEscOk p.2 with
            | Except.error e => Except.error e
            | Except.ok _ => Except.ok host

/-- Percent-decode a path (`setPath`'s `unescape(p, encodePath)`). -/
def setPathInto (host : String) (p : List Char) : Except String GoURL :=
  match unescapeGo EscMode.path p with
  | Except.error e => Except.error e
  | Except.ok decoded => Except.ok (GoURL.mk host (String.mk decoded))

/-- Go `parse(rawURL, viaRequest := false)` on the pre-fragment part of
the URL: control-byte check, the `*` special case, scheme, trailing
lone `?` (force-query) or query split, then either an opaque remainder
(non-empty scheme, no leading `/`), a relative form whose first path
segment must not contain a colon, or an authority (`//…`) followed by
the path. -/
def urlParseCore (u : String) : Except String GoURL :=
  if stringContainsCTL u then
    Except.error "net/url: invalid control character in URL"
  else if u == "*" then Except.ok (GoURL.mk "" "*")
  else
    match getScheme u with
    | Except.error e => Except.error e
    | Except.ok sr =>
      let scheme := sr.1
      let rest1 := sr.2.data
      let rest :=
        if (rest1.getLast? == some '?') && !(chHas rest1.dropLast '?') then
          rest1.dropLast
        else
          match chCut '?' rest1 with
          | none => rest1
          | some p => p.1
      if !(chMatch ['/'] rest) then
        if scheme ≠ "" then
          -- rootless remainder with a scheme: the URL is opaque, and
          -- both Host and Path stay empty
          Except.ok (GoURL.mk "" "")
        else
          match chIdxOf? ':' rest, chIdxOf? '/' rest with
          | some _, none =>
            Except.error "first path segment in URL cannot contain colon"
          | some i, some i2 =>
            if i < i2 then
              Except.error "first path segment in URL cannot contain colon"
            else setPathInto "" rest
          | none, _ => setPathInto "" rest
      else
        if (scheme ≠ "" || !(chMatch ['/', '/', '/'] rest)) && chMatch ['/', '/'] rest then
          let after := rest.drop 2
          match chIdxOf? '/' after with
          | none =>
            match parseAuthority (String.mk after) with
            | Except.error e => Except.error e
            | Except.ok host => setPathInto host []
          | some i =>
            match parseAuthority (String.mk (after.take i)) with
            | Except.error e => Except.error e
            | Except.ok host => setPathInto host (after.drop i)
        else setPathInto "" rest

/-- Go `net/url.Parse`: split the fragment off at the first `#`, parse
the rest, and validate the fragment's escapes; errors are wrapped as
`parse "<url>": <cause>`. -/
def urlParse (rawURL : String) : Except String GoURL :=
  match chCut '#' rawURL.data with
  | none =>
    match urlParseCore rawURL with
    | Except.error e => Except.error ("parse " ++ goQuote rawURL ++ ": " ++ e)
    | Except.ok url => Except.ok url
  | some p =>
    let u := String.mk p.1
    match urlParseCore u with
    | Except.error e => Except.error ("parse " ++ goQuote u ++ ": " ++ e)
    | Except.ok url =>
      if p.2.isEmpty then Except.ok url
      else
        match unescapeGo EscMode.fragment p.2 with
        | Except.error e => Except.error ("parse " ++ goQuote rawURL ++ ": " ++ e)
        | Except.ok _ => Except.ok url

/-! ## Reference URL parser (`tagFromSkopeoUrl`) -/

/-- Embedding of `tagFromSkopeoUrl` from the base-layer importer file:
for a docker-prefixed string the URL is parsed (a parse failure is
returned as-is), then the basename of the path up to the first `:` is
the tag, or with no path the host up to the first `:`. -/
def tagFromSkopeoUrl (thing : String) : Except String String :=
  if strStarts thing "docker" then
    match urlParse thing with
    | Except.error e => Except.error e
    | Except.ok url =>
      if url.Path ≠ "" then
        Except.ok (pathBase (splitColonHead url.Path))
      else
        -- with no url path the host is used as the image tag
        Except.ok (splitColonHead url.Host)
  else if strStarts thing "oci" then
    let pieces := strSplit thing ":"
    if pieces.length ≠ 3 then
      Except.error ("bad OCI tag: " ++ thing)
    else
      Except.ok (pieces.getD 2 "")
  else
    Except.error ("invalid image url: " ++ thing)

/-- The specification's description of the reference URL parser, written
from the spec's words (§4.1) for comparison with the source embedding:
docker URLs take the basename of the path up to an optional `:tag`
suffix, or the host portion before any port when there is no path, and
fail with the URL parser's error (BadURL) on unparseable URLs; OCI
strings take the third colon-delimited field when there are exactly
three fields and fail otherwise; other schemes fail. -/
def tagFromSkopeoUrlSpec (thing : String) : Except String String :=
  if strStarts thing "docker" then
    match urlParse thing with
    | Except.error e => Except.error e
    | Except.ok url =>
      if url.Path = "" then
        Except.ok (splitColonHead url.Host)
      else
        Except.ok (pathBase (splitColonHead url.Path))
  else if strStarts thing "oci" then
    let fields := strSplit thing ":"
    if fields.length = 3 then
      Except.ok (fields.getD 2 "")
    else
      Except.error ("bad OCI tag: " ++ thing)
  else
    Except.error ("invalid image url: " ++ thing)

/-! ## SHA-256 (the `crypto/sha256` hasher used by `ComputeAggregateHash`),
over byte lists with 32-bit words as `Nat % 2^32`. -/

/-- 32-bit truncation. -/
def w32 (x : Nat) : Nat := x % 4294967296

/-- 32-bit right rotation. -/
def rotr (n x : Nat) : Nat := (x >>> n) ||| (w32 (x <<< (32 - n)))

def smallSigma0 (x : Nat) : Nat := (rotr 7 x) ^^^ (rotr 18 x) ^^^ (x >>> 3)

def smallSigma1 (x : Nat) : Nat := (rotr 17 x) ^^^ (rotr 19 x) ^^^ (x >>> 10)

def bigSigma0 (x : Nat) : Nat := (rotr 2 x) ^^^ (rotr 13 x) ^^^ (rotr 22 x)

def bigSigma1 (x : Nat) : Nat := (rotr 6 x) ^^^ (rotr 11 x) ^^^ (rotr 25 x)

def chF (x y z : Nat) : Nat := (x &&& y) ^^^ ((x ^^^ 4294967295) &&& z)

def majF (x y z : Nat) : Nat := (x &&& y) ^^^ (x &&& z) ^^^ (y &&& z)

def sha256K : List Nat :=
  [1116352408, 1899447441, 3049323471, 3921009573, 961987163, 1508970993, 2453635748, 2870763221,
   3624381080, 310598401, 607225278, 1426881987, 1925078388, 2162078206, 2614888103, 3248222580,
   3835390401, 4022224774, 264347078, 604807628, 770255983, 1249150122, 1555081692, 1996064986,
   2554220882, 2821834349, 2952996808, 3210313671, 3336571891, 3584528711, 113926993, 338241895,
   666307205, 773529912, 1294757372, 1396182291, 1695183700, 1986661051, 2177026350, 2456956037,
   2730485921, 2820302411, 3259730800, 3345764771, 3516065817, 3600352804, 4094571909, 275423344,
   430227734, 506948616, 659060556, 883997877, 958139571, 1322822218, 1537002063, 1747873779,
   1955562222, 2024104815, 2227730452, 2361852424, 2428436474, 2756734187, 3204031479, 3329325298]

def sha256H0 : List Nat :=
  [1779033703, 3144134277, 1013904242, 2773480762, 1359893119, 2600822924, 528734635, 1541459225]

/-- Big-endian bytes of `x`, `n` bytes wide. -/
def toBytesBE (n x : Nat) : List Nat :=
  match n with
  | 0 => []
  | m + 1 => toBytesBE m (x >>> 8) ++ [x &&& 255]

/-- SHA-256 padding: append `0x80`, zeros up to 56 mod 64, then the
64-bit big-endian bit length. -/
def sha256pad (msg : List Nat) : List Nat :=
  let l := msg.length
  let k := (119 - l % 64) % 64
  msg ++ [128] ++ List.replicate k 0 ++ toBytesBE 8 (8 * l)

def chunksGo : Nat → List Nat → List (List Nat)
  | 0, _ => []
  | n + 1, bs => if bs.isEmpty then [] else bs.take 64 :: chunksGo n (bs.drop 64)

/-- Split a byte list into 64-byte blocks. -/
def chunks64 (bs : List Nat) : List (List Nat) := chunksGo bs.length bs

def bytesToWords : List Nat → List Nat
  | b0 :: b1 :: b2 :: b3 :: rest =>
    (((b0 * 256 + b1) * 256 + b2) * 256 + b3) :: bytesToWords rest
  | _ => []

def wAt (w : List Nat) (i : Nat) : Nat := w.getD i 0

def scheduleStep (w : List Nat) : List Nat :=
  let n := w.length
  w ++ [w32 (wAt w (n - 16) + smallSigma0 (wAt w (n - 15)) +
             wAt w (n - 7) + smallSigma1 (wAt w (n - 2)))]

/-- Extend the 16 message words to the 64-entry schedule. -/
def schedule (w16 : List Nat) : List Nat :=
  (List.range 48).foldl (fun w _ => scheduleStep w) w16

structure H8 where
  a : Nat
  b : Nat
  c : Nat
  d : Nat
  e : Nat
  f : Nat
  g : Nat
  h : Nat

def compressStep (st : H8) (kw : Nat × Nat) : H8 :=
  let t1 := w32 (st.h + bigSigma1 st.e + chF st.e st.f st.g + kw.1 + kw.2)
  let t2 := w32 (bigSigma0 st.a + majF st.a st.b st.c)
  { a := w32 (t1 + t2), b := st.a, c := st.b, d := st.c,
    e := w32 (st.d + t1), f := st.e, g := st.f, h := st.g }

def compressBlock (hs : List Nat) (block : List Nat) : List Nat :=
  let w := schedule (bytesToWords block)
  let st0 : H8 :=
    { a := wAt hs 0, b := wAt hs 1, c := wAt hs 2, d := wAt hs 3,
      e := wAt hs 4, f := wAt hs 5, g := wAt hs 6, h := wAt hs 7 }
  let st := (sha256K.zip w).foldl compressStep st0
  [w32 (wAt hs 0 + st.a), w32 (wAt hs 1 + st.b), w32 (wAt hs 2 + st.c),
   w32 (wAt hs 3 + st.d), w32 (wAt hs 4 + st.e), w32 (wAt hs 5 + st.f),
   w32 (wAt hs 6 + st.g), w32 (wAt hs 7 + st.h)]

def hexWord8 (x : Nat) : String :=
  String.mk ((List.range 8).map (fun i => hexDigit ((x >>> (28 - 4 * i)) &&& 15)))

/-- Lowercase hex SHA-256 digest of a byte list, the value of Go's
`fmt.Sprintf("%x", h.Sum(nil))` for a `sha256.New()` hasher fed `msg`. -/
def sha256hex (msg : List Nat) : String :=
  let blocks := chunks64 (sha256pad msg)
  let hs := blocks.foldl compressBlock sha256H0
  String.join (hs.map hexWord8)

/-- Bytes written by `h.Write([]byte(s))` for the ASCII digest strings
the engine hashes. -/
def strBytes (s : String) : List Nat := s.data.map Char.toNat

/-! ## `updateBundleMtree` (build.go) -/

/-- OCI descriptor (`ispec.Descriptor`): the fields the engine reads. -/
structure Descriptor where
  MediaType : String
  Digest : String
  Size : Nat
deriving DecidableEq, Repr

/-- The zero `ispec.Descriptor{}` recorded for build-only layers. -/
def zeroDescriptor : Descriptor := { MediaType := "", Digest := "", Size := 0 }

/-- The target filename `updateBundleMtree` renames to:
`strings.Replace(newPath.Digest.String(), ":", "_", 1) + ".mtree"`. -/
def mtreeTargetName (newPath : Descriptor) : String :=
  replaceFirstColon newPath.Digest ++ ".mtree"

/-- The loop body of `updateBundleMtree`: walk the directory entries in
order, skip names without the `".mtree"` suffix, and on the first match
return the single rename performed (absolute source and destination).
An empty result models the fall-through `return nil`. -/
def updateBundleMtreeLoop (rootPath : String) (newName : String) :
    List String → List (String × String)
  | [] => []
  | fi :: rest =>
    if strEnds fi ".mtree" then
      [(pathJoin2 rootPath fi, pathJoin2 rootPath newName)]
    else
      updateBundleMtreeLoop rootPath newName rest

/-- Embedding of `updateBundleMtree` (build.go): the list of renames it
performs given the directory listing `entries` of `rootPath`. -/
def updateBundleMtree (rootPath : String) (entries : List String)
    (newPath : Descriptor) : List (String × String) :=
  updateBundleMtreeLoop rootPath (mtreeTargetName newPath) entries

/-! ## OCI manifest model and `ComputeAggregateHash` -/

/-- OCI manifest (`ispec.Manifest`): the fields the engine reads.
Annotations are the manifest's string-to-string map, modelled as an
association list. -/
structure Manifest where
  Config : Descriptor
  Layers : List Descriptor
  Annotations : List (String × String)
deriving DecidableEq, Repr

/-- Go map indexing `annotations[k]`, returning `""` for a missing key. -/
def annotationsGetD (anns : List (String × String)) (k : String) : String :=
  match anns.find? (fun p => p.1 = k) with
  | some p => p.2
  | none => ""

/-- Image config (`ispec.Image`): the engine only touches
`config.RootFS.DiffIDs` on the squashfs path. -/
structure RootFS where
  DiffIDs : List String
deriving DecidableEq, Repr

structure ImageConfig where
  RootFS : RootFS
deriving DecidableEq, Repr

/-- The loop of `ComputeAggregateHash`: walk the layers in order, feeding
each stringified digest to the hasher (accumulating its input bytes), and
stop (break) right after the layer whose digest matches; `none` when no
layer matches. -/
def aggLoop (dDigest : String) : List Descriptor → List Nat → Option (List Nat)
  | [], _ => none
  | l :: rest, acc =>
    let acc' := acc ++ strBytes l.Digest
    if l.Digest = dDigest then some acc' else aggLoop dDigest rest acc'

/-- Embedding of `ComputeAggregateHash` from the base-layer importer
file: hex SHA-256 over the digests of the layers up to and including the
one matching `descriptor`, or the `couldn't find descriptor` error. -/
def ComputeAggregateHash (manifest : Manifest) (descriptor : Descriptor) :
    Except String String :=
  match aggLoop descriptor.Digest manifest.Layers [] with
  | some bytes => .ok (sha256hex bytes)
  | none =>
    .error ("couldn't find descriptor " ++ descriptor.Digest ++ " in manifest " ++
      annotationsGetD manifest.Annotations "org.opencontainers.image.ref.name")

/-! ## Data model of the build driver -/

/-- The layer source type constants are Go strings. -/
def BuiltType : String := "built"

def TarType : String := "tar"

def OCIType : String := "oci"

def DockerType : String := "docker"

def ScratchType : String := "scratch"

/-- `from` specifier of a recipe layer (`Type` is spelt `Typ` since
`Type` is reserved in Lean). -/
structure ImageSource where
  Typ : String
  Url : String
  Tag : String
  Insecure : Bool
deriving DecidableEq, Repr

/-- Recipe layer record: the fields the build driver reads. The parsed
`run` command list stands for `ParseRun`'s result. -/
structure Layer where
  From : ImageSource
  BuildOnly : Bool
  Run : List String
deriving DecidableEq, Repr

structure StackerConfig where
  StackerDir : String
  OCIDir : String
  RootFSDir : String
deriving DecidableEq, Repr

/-- `BaseLayerOpts`; the `Cache` and `OCI` handles are external
collaborators, modelled through the event trace. -/
structure BaseLayerOpts where
  Config : StackerConfig
  Name : String
  Target : String
  Layer : Layer
  LayerType : String
  Debug : Bool
deriving DecidableEq, Repr

structure BuildArgs where
  Config : StackerConfig
  LeaveUnladen : Bool
  NoCache : Bool
  OnRunFailure : String
  LayerType : String
deriving DecidableEq, Repr

/-- A build cache entry as `Lookup` returns it. -/
structure CacheEntry where
  Name : String
  Blob : Descriptor
deriving DecidableEq, Repr

def MediaTypeLayerSquashfs : String := "application/vnd.oci.image.layer.squashfs"

def MediaTypeImageConfig : String := "application/vnd.oci.image.config.v1+json"

def MediaTypeImageManifest : String := "application/vnd.oci.image.manifest.v1+json"

/-- Modelled from the spec: `Layer.From.ParseTag` is outside the
provided sources; §4.3 step 1 says it parses the tag from `from.url`,
via the reference URL parser (for OCI layouts the URL carries no
scheme, so the `oci:` scheme is prepended first, matching `getOCI`'s
use of the same URL). -/
def ImageSource.ParseTag (i : ImageSource) : Except String String :=
  if i.Typ = DockerType then tagFromSkopeoUrl i.Url
  else if i.Typ = OCIType then tagFromSkopeoUrl ("oci:" ++ i.Url)
  else Except.error ("can't parse tag for type: " ++ i.Typ)

/-! ## Externally visible events of the build pipeline -/

inductive Event where
  /-- `Storage.Delete` -/
  | sDelete (name : String)
  /-- `Storage.Create` -/
  | sCreate (name : String)
  /-- `Storage.Restore src dst` -/
  | sRestore (src dst : String)
  /-- `Storage.Snapshot src dst` -/
  | sSnapshot (src dst : String)
  /-- `oci.DeleteReference` on the output OCI -/
  | ociDeleteRef (name : String)
  /-- `oci.UpdateReference` on the output OCI -/
  | ociUpdateRef (name : String) (desc : Descriptor)
  /-- `lib.ImageCopy` -/
  | imageCopy (src dst : String)
  /-- `os.MkdirAll` -/
  | mkdirAll (dir : String)
  /-- deferred `GC` of the layer-base cache layout in `runSkopeo` -/
  | layerBaseGC
  /-- `GC` of the output OCI layout -/
  | ociGC
  /-- umoci `unpack` subcommand -/
  | unpack (tag target : String)
  /-- umoci `init` subcommand -/
  | umociInitRun (tag target : String)
  /-- `tar xf` subprocess -/
  | tarExtract (tarPath target : String)
  /-- `acquireUrl` of a tarball -/
  | acquire (url dest : String)
  /-- `Import` of the layer's import files -/
  | importFiles (name : String)
  /-- `NewApply` + `DoApply` -/
  | applyStep (name : String)
  /-- `Run` of the layer's command script -/
  | runCmds (name : String)
  /-- umoci `repack` subcommand -/
  | repack (name : String)
  /-- `oci.ResolveReference` -/
  | resolveRef (name : String)
  /-- the image-config mutator session (`mutate.New` … `Commit`) -/
  | mutateCommit (name : String)
  /-- `oci.PutBlob` of a file -/
  | putBlob (path : String)
  /-- `oci.PutBlobJSON` of an image config, with the digest it got -/
  | putBlobJSONConfig (digest : String) (cfg : ImageConfig)
  /-- `oci.PutBlobJSON` of a manifest, with the digest it got -/
  | putBlobJSONManifest (digest : String) (m : Manifest)
  /-- `os.Rename` (mtree file) -/
  | rename (src dst : String)
  /-- `umoci.WriteBundleMeta` -/
  | writeBundleMetaRun (desc : Descriptor)
  /-- `buildCache.Put` -/
  | cachePut (name : String) (desc : Descriptor)
  /-- a line printed to standard output -/
  | printLine (s : String)
deriving DecidableEq, Repr

/-- Writer-style embedding of an effectful, fallible Go computation:
the trace of events it performed, and its result. -/
def TraceM (α : Type) : Type := List Event × Except String α

def tPure {α : Type} (a : α) : TraceM α := ([], Except.ok a)

def tError {α : Type} (e : String) : TraceM α := ([], Except.error e)

/-- Lift a pure fallible value (no event). -/
def tLift {α : Type} (r : Except String α) : TraceM α := ([], r)

/-- An external operation: one event, outcome supplied by the
environment. -/
def tEv {α : Type} (ev : Event) (r : Except String α) : TraceM α := ([ev], r)

/-- An external operation whose Go result is ignored by the caller. -/
def tEvOk (ev : Event) : TraceM Unit := ([ev], Except.ok ())

def tBind {α β : Type} (x : TraceM α) (f : α → TraceM β) : TraceM β :=
  match x with
  | (tr, Except.ok a) => (tr ++ (f a).1, (f a).2)
  | (tr, Except.error e) => (tr, Except.error e)

instance : Monad TraceM where
  pure := tPure
  bind := tBind

@[simp] theorem bind_def {α β : Type} (x : TraceM α) (f : α → TraceM β) :
    x >>= f = tBind x f := rfl

@[simp] theorem pure_def {α : Type} (a : α) :
    (pure a : TraceM α) = ([], Except.ok a) := rfl

@[simp] theorem tBind_ok {α β : Type} (tr : List Event) (a : α) (f : α → TraceM β) :
    tBind (tr, Except.ok a) f = (tr ++ (f a).1, (f a).2) := rfl

@[simp] theorem tBind_error {α β : Type} (tr : List Event) (e : String) (f : α → TraceM β) :
    tBind (tr, Except.error e) f = (tr, Except.error e) := rfl

/-- Outcomes of the external collaborators (storage driver, image copy,
umoci subprocesses, OCI CAS, build cache), per §1 of the spec all
outside the core. An `Env` fixes one behaviour of the world around the
engine. -/
structure Env where
  cacheLookup : String → Option CacheEntry
  importRes : String → Except String Unit
  createRes : String → Except String Unit
  restoreRes : String → String → Except String Unit
  snapshotRes : String → String → Except String Unit
  updateRefRes : String → Descriptor → Except String Unit
  deleteRefRes : String → Except String Unit
  mkdirRes : String → Except String Unit
  copyRes : String → String → Except String Unit
  unpackRes : String → String → Except String Unit
  initRes : String → Except String Unit
  acquireRes : String → String → Except String String
  tarRes : String → String → Except String Unit
  applyRes : String → Except String Unit
  runRes : String → Except String Unit
  mkSquashfsRes : Except String String
  putBlobRes : String → Except String (String × Nat)
  openCacheRes : Except String Unit
  lookupManifestRes : String → Except String Manifest
  lookupConfigRes : Descriptor → Except String ImageConfig
  putBlobJSONConfigRes : ImageConfig → Except String (String × Nat)
  putBlobJSONManifestRes : Manifest → Except String (String × Nat)
  bundleEntriesRes : Except String (List String)
  renameRes : String → String → Except String Unit
  writeBundleMetaRes : Except String Unit
  repackRes : String → Except String Unit
  resolveRefRes : String → Except String Descriptor
  mutateRes : String → Except String (Descriptor × Descriptor)
  cachePutRes : String → Descriptor → Except String Unit
  finalGCRes : Except String Unit

theorem aggLoop_eq_findIdx (dd : String) (layers : List Descriptor) (acc : List Nat) :
    aggLoop dd layers acc =
      (layers.findIdx? (fun l => l.Digest == dd)).map
        (fun k => acc ++ (((layers.take (k + 1)).map (fun l => strBytes l.Digest)).flatten)) := by
  induction layers generalizing acc with
  | nil => simp [aggLoop, List.findIdx?_nil]
  | cons l rest ih =>
    rw [List.findIdx?_cons]
    by_cases h : l.Digest = dd
    · simp [aggLoop, h]
    · rw [aggLoop, if_neg h, ih, if_neg (by simp [h]), List.findIdx?_succ]
      cases hf : rest.findIdx? (fun l => l.Digest == dd) with
      | none => simp
      | some k => simp [List.append_assoc]

/-! ## The base-layer importer -/

/-- `path.Join(o.Config.StackerDir, "layer-bases", "oci")`. -/
def layerBasesOCIDir (c : StackerConfig) : String :=
  pathJoin3 c.StackerDir "layer-bases" "oci"

/-- Embedding of `runSkopeo`: parse the tag, make the layer-base cache
dir, copy the image into the cache and, when `copyToOutput` is set and
the layer type is tar, copy it on into the output OCI. The deferred GC
of the layer-base layout runs on exit once the cache dir exists, its
failure swallowed. -/
def runSkopeo (toImport : String) (o : BaseLayerOpts) (copyToOutput : Bool)
    (env : Env) : TraceM Unit :=
  match tagFromSkopeoUrl toImport with
  | Except.error e => tError e
  | Except.ok tag =>
    let cacheDir := layerBasesOCIDir o.Config
    match env.mkdirRes cacheDir with
    | Except.error e => (([Event.mkdirAll cacheDir] : List Event), Except.error e)
    | Except.ok _ =>
      let cacheDst := "oci:" ++ cacheDir ++ ":" ++ tag
      let body : TraceM Unit :=
        match env.copyRes toImport cacheDst with
        | Except.error e => ([Event.imageCopy toImport cacheDst], Except.error e)
        | Except.ok _ =>
          if !copyToOutput then
            ([Event.imageCopy toImport cacheDst], Except.ok ())
          else if o.LayerType == "tar" then
            -- we just copied it to the cache, now copy that over to our image
            let outDst := "oci:" ++ o.Config.OCIDir ++ ":" ++ tag
            ([Event.imageCopy toImport cacheDst, Event.imageCopy cacheDst outDst],
             env.copyRes cacheDst outDst)
          else
            ([Event.imageCopy toImport cacheDst], Except.ok ())
      (Event.mkdirAll cacheDir :: body.1 ++ [Event.layerBaseGC], body.2)

/-- `oci.PutBlobJSON` of a config: the event records the digest the
store chose together with the stored value. -/
def tPutConfig (env : Env) (cfg : ImageConfig) : TraceM (String × Nat) :=
  match env.putBlobJSONConfigRes cfg with
  | Except.error e => ([Event.putBlobJSONConfig "" cfg], Except.error e)
  | Except.ok r => ([Event.putBlobJSONConfig r.1 cfg], Except.ok r)

/-- `oci.PutBlobJSON` of a manifest. -/
def tPutManifest (env : Env) (m : Manifest) : TraceM (String × Nat) :=
  match env.putBlobJSONManifestRes m with
  | Except.error e => ([Event.putBlobJSONManifest "" m], Except.error e)
  | Except.ok r => ([Event.putBlobJSONManifest r.1 m], Except.ok r)

/-- `updateBundleMtree` as the pipeline performs it: read the bundle
directory and apply the (at most one) rename. -/
def updateBundleMtreeM (rootPath : String) (d : Descriptor) (env : Env) :
    TraceM Unit :=
  match env.bundleEntriesRes with
  | Except.error e => tError e
  | Except.ok entries =>
    match updateBundleMtree rootPath entries d with
    | [] => tPure ()
    | (src, dst) :: _ => tEv (Event.rename src dst) (env.renameRes src dst)

/-- Embedding of `extractOutput`: unpack the base from the layer-base
cache into the target bundle, drop the base tag from the output OCI,
and on the squashfs path (layer type squashfs and not build-only)
replace the base manifest's layers by a single squashfs blob of the
rootfs, rewrite the config's diff-IDs, re-put config and manifest and
tag the new manifest under the layer's name. -/
def extractOutput (o : BaseLayerOpts) (env : Env) : TraceM Unit := do
  let tag ← tLift o.Layer.From.ParseTag
  let target := pathJoin2 o.Config.RootFSDir o.Target
  let _ ← tEv (Event.unpack tag target) (env.unpackRes tag target)
  -- delete the tag for the base layer from the output; result ignored
  let _ ← tEvOk (Event.ociDeleteRef tag)
  if o.LayerType == "squashfs" && !o.Layer.BuildOnly then
    let _ ← tEvOk Event.ociGC   -- result ignored
    let tmpSquashfs ← tLift env.mkSquashfsRes
    let lr ← tEv (Event.putBlob tmpSquashfs) (env.putBlobRes tmpSquashfs)
    let _ ← tLift (match env.openCacheRes with
      | Except.error e => Except.error ("couldn't open base layer dir: " ++ e)
      | Except.ok _ => Except.ok ())
    -- the parse error of the cache tag is immediately shadowed by the
    -- next assignment in the source, so a failed parse yields ""
    let cacheTag := (tagFromSkopeoUrl o.Layer.From.Url).toOption.getD ""
    let manifest ← tLift (env.lookupManifestRes cacheTag)
    let config ← tLift (env.lookupConfigRes manifest.Config)
    let desc := Descriptor.mk MediaTypeLayerSquashfs lr.1 lr.2
    let manifest1 := { manifest with Layers := [desc] }
    let config1 := { config with RootFS := RootFS.mk [lr.1] }
    let cr ← tPutConfig env config1
    let manifest2 := { manifest1 with
      Config := Descriptor.mk MediaTypeImageConfig cr.1 cr.2 }
    let mr ← tPutManifest env manifest2
    let desc2 := Descriptor.mk MediaTypeImageManifest mr.1 mr.2
    let _ ← tEv (Event.ociUpdateRef o.Name desc2) (env.updateRefRes o.Name desc2)
    let bundlePath := pathJoin2 o.Config.RootFSDir ".working"
    let _ ← updateBundleMtreeM bundlePath desc2 env
    tEv (Event.writeBundleMetaRun desc2) env.writeBundleMetaRes
  else
    tPure ()

/-- `umociInit`: umoci `init` with the layer name as tag and `.working`
as bundle path. -/
def umociInit (o : BaseLayerOpts) (env : Env) : TraceM Unit :=
  tEv (Event.umociInitRun o.Name (pathJoin2 o.Config.RootFSDir ".working"))
    (env.initRes o.Name)

def getDocker (o : BaseLayerOpts) (env : Env) : TraceM Unit := do
  let _ ← runSkopeo o.Layer.From.Url o
    (!o.Layer.BuildOnly && o.LayerType == "tar") env
  extractOutput o env

def getTar (o : BaseLayerOpts) (env : Env) : TraceM Unit := do
  let cacheDir := pathJoin2 o.Config.StackerDir "layer-bases"
  let _ ← tEv (Event.mkdirAll cacheDir) (env.mkdirRes cacheDir)
  let tar ← tEv (Event.acquire o.Layer.From.Url cacheDir)
    (env.acquireRes o.Layer.From.Url cacheDir)
  let _ ← umociInit o env
  let layerPath := pathJoin3 o.Config.RootFSDir o.Target "rootfs"
  tEv (Event.tarExtract tar layerPath) (env.tarRes tar layerPath)

def getScratch (o : BaseLayerOpts) (env : Env) : TraceM Unit :=
  umociInit o env

def getOCI (o : BaseLayerOpts) (env : Env) : TraceM Unit := do
  let _ ← runSkopeo ("oci:" ++ o.Layer.From.Url) o (!o.Layer.BuildOnly) env
  extractOutput o env

/-- The walk in `getBuilt` to the ultimate non-built ancestor. The Go
loop never terminates on a cyclic recipe (the engine assumes acyclic
input, §9); the fuel, one more than the recipe size, is enough for
every acyclic recipe. The not-found error message uses the starting
layer's `from.tag`, as the source does. -/
def walkBase (sf : List (String × Layer)) (errTag : String) :
    Nat → Layer → Except String Layer
  | 0, _ => Except.error ("missing base layer " ++ errTag ++ "?")
  | fuel + 1, cur =>
    match sf.find? (fun p => p.1 == cur.From.Tag) with
    | none => Except.error ("missing base layer " ++ errTag ++ "?")
    | some p =>
      if p.2.From.Typ == BuiltType then walkBase sf errTag fuel p.2
      else Except.ok p.2

def getBuilt (o : BaseLayerOpts) (sf : List (String × Layer)) (env : Env) :
    TraceM Unit :=
  match walkBase sf o.Layer.From.Tag (sf.length + 1) o.Layer with
  | Except.error e => tError e
  | Except.ok base =>
    -- nothing to do unless the ancestor imported a docker/oci base
    if (base.From.Typ ≠ DockerType ∧ base.From.Typ ≠ OCIType) ∨ base.BuildOnly = false then
      tPure ()
    else if base.BuildOnly = false then
      -- kept from the source although unreachable after the previous guard
      tPure ()
    else
      match base.From.ParseTag with
      | Except.error e => tError e
      | Except.ok tag => do
        let cacheDir := layerBasesOCIDir o.Config
        let src := "oci:" ++ cacheDir ++ ":" ++ tag
        let dst := "oci:" ++ o.Config.OCIDir ++ ":" ++ tag
        let _ ← tEv (Event.imageCopy src dst) (env.copyRes src dst)
        tEv (Event.ociDeleteRef tag) (env.deleteRefRes tag)

/-- Embedding of `GetBaseLayer`: delete the layer's tag (result
ignored), then dispatch on the source type. -/
def GetBaseLayer (o : BaseLayerOpts) (sf : List (String × Layer)) (env : Env) :
    TraceM Unit :=
  tBind (tEvOk (Event.ociDeleteRef o.Name)) fun _ =>
    if o.Layer.From.Typ = BuiltType then getBuilt o sf env
    else if o.Layer.From.Typ = TarType then getTar o env
    else if o.Layer.From.Typ = OCIType then getOCI o env
    else if o.Layer.From.Typ = DockerType then getDocker o env
    else if o.Layer.From.Typ = ScratchType then getScratch o env
    else tError ("unknown layer type: " ++ o.Layer.From.Typ)

/-! ## The build driver -/

/-- The `BaseLayerOpts` literal in `Build`: the source populates only
`Config`, `Name`, `Target`, `Layer` (and the `Cache`/`OCI` handles), so
`LayerType` and `Debug` keep their Go zero values. -/
def mkBaseOpts (cfg : StackerConfig) (name : String) (l : Layer) : BaseLayerOpts :=
  { Config := cfg, Name := name, Target := ".working", Layer := l,
    LayerType := "", Debug := false }

/-- One iteration of `Build`'s layer loop. -/
def buildLayer (opts : BuildArgs) (sf : List (String × Layer)) (name : String)
    (l : Layer) (env : Env) : TraceM Unit := do
  let _ ← tEv (Event.importFiles name) (env.importRes name)
  match env.cacheLookup name with
  | some cacheEntry =>
    -- cache hit: publish the cached artifact and continue
    if l.BuildOnly then
      if cacheEntry.Name != name then
        tEv (Event.sSnapshot cacheEntry.Name name)
          (env.snapshotRes cacheEntry.Name name)
      else
        tPure ()
    else
      tEv (Event.ociUpdateRef name cacheEntry.Blob)
        (env.updateRefRes name cacheEntry.Blob)
  | none => do
    let o := mkBaseOpts opts.Config name l
    let _ ← tEvOk (Event.sDelete ".working")   -- result ignored in the source
    let _ ← if l.From.Typ == BuiltType then
        tEv (Event.sRestore l.From.Tag ".working")
          (env.restoreRes l.From.Tag ".working")
      else
        tEv (Event.sCreate ".working") (env.createRes ".working")
    let _ ← GetBaseLayer o sf env
    let _ ← tEv (Event.applyStep name) (env.applyRes name)
    let _ ← if l.Run.isEmpty then tPure () else
      tEv (Event.runCmds name) (env.runRes name)
    if l.BuildOnly then do
      -- snapshot only; a zero-descriptor cache entry marks the layer
      let _ ← tEvOk (Event.sDelete name)       -- result ignored in the source
      let _ ← tEv (Event.sSnapshot ".working" name)
        (env.snapshotRes ".working" name)
      tEv (Event.cachePut name zeroDescriptor)
        (env.cachePutRes name zeroDescriptor)
    else if opts.LayerType == "tar" then do
      let _ ← tEv (Event.repack name) (env.repackRes name)
      let _ ← tEv (Event.resolveRef name) (env.resolveRefRes name)
      -- the image-config mutation session, collapsed to one external
      -- step returning (root descriptor, leaf descriptor) of the commit
      let nd ← tEv (Event.mutateCommit name) (env.mutateRes name)
      let _ ← tEv (Event.ociUpdateRef name nd.1) (env.updateRefRes name nd.1)
      let bundlePath := pathJoin2 opts.Config.RootFSDir ".working"
      let _ ← updateBundleMtreeM bundlePath nd.2 env
      let _ ← tEv (Event.writeBundleMetaRun nd.2) env.writeBundleMetaRes
      let _ ← tEvOk (Event.sDelete name)       -- result ignored in the source
      let _ ← tEv (Event.sSnapshot ".working" name)
        (env.snapshotRes ".working" name)
      let desc1 ← tEv (Event.resolveRef name) (env.resolveRefRes name)
      tEv (Event.cachePut name desc1) (env.cachePutRes name desc1)
    else
      tError ("unknown layer type: " ++ opts.LayerType)

def buildLoop (opts : BuildArgs) (sf : List (String × Layer)) (env : Env) :
    List (String × Layer) → TraceM Unit
  | [] => tPure ()
  | (name, l) :: rest =>
    tBind (buildLayer opts sf name l env) fun _ => buildLoop opts sf env rest

/-- Embedding of `Build`'s layer loop and final GC. The setup (recipe
load, storage attach, OCI layout open, cache open, author metadata) is
external; the ordered recipe `sf` serves both as the dependency order
and the name-to-layer table. The final GC error is printed and then
returned as `Build`'s result. -/
def Build (opts : BuildArgs) (sf : List (String × Layer)) (env : Env) :
    TraceM Unit :=
  match tBind (tEvOk (Event.sDelete ".working")) (fun _ => buildLoop opts sf env sf) with
  | (tr, Except.error e) => (tr, Except.error e)
  | (tr, Except.ok _) =>
    match env.finalGCRes with
    | Except.ok _ => (tr ++ [Event.ociGC], Except.ok ())
    | Except.error e =>
      (tr ++ [Event.ociGC, Event.printLine ("final OCI GC failed: " ++ e)],
       Except.error e)

/-! ## Replay of the output-OCI effects of a trace -/

def lookupAssoc {α : Type} (xs : List (String × α)) (k : String) : Option α :=
  (xs.find? (fun p => p.1 == k)).map (fun p => p.2)

/-- State of the output OCI layout as far as the engine observes it:
named references and the stored manifest/config blobs. -/
structure OCIState where
  refs : List (String × Descriptor)
  manifests : List (String × Manifest)
  configs : List (String × ImageConfig)
deriving DecidableEq, Repr

/-- Effect of one event on the output OCI. `ociGC` removes only
unreferenced blobs, so it is the identity on the tracked (referenced)
entries. -/
def applyEvent (st : OCIState) : Event → OCIState
  | Event.ociUpdateRef n d => { st with refs := (n, d) :: st.refs }
  | Event.ociDeleteRef n => { st with refs := st.refs.filter (fun p => p.1 != n) }
  | Event.putBlobJSONManifest dg m => { st with manifests := (dg, m) :: st.manifests }
  | Event.putBlobJSONConfig dg c => { st with configs := (dg, c) :: st.configs }
  | _ => st

def replay (evs : List Event) (st : OCIState) : OCIState :=
  evs.foldl applyEvent st

/-! ## Event classifiers -/

/-- Events emitted only by the base-layer importer. -/
def isBaseImportEv : Event → Bool
  | Event.imageCopy _ _ => true
  | Event.unpack _ _ => true
  | Event.umociInitRun _ _ => true
  | Event.tarExtract _ _ => true
  | Event.acquire _ _ => true
  | _ => false

def isRunEv : Event → Bool
  | Event.runCmds _ => true
  | _ => false

def isRepackEv : Event → Bool
  | Event.repack _ => true
  | _ => false

/-- Storage-driver operations (create/restore/snapshot/delete of a
rootfs). -/
def isStorageEv : Event → Bool
  | Event.sDelete _ => true
  | Event.sCreate _ => true
  | Event.sRestore _ _ => true
  | Event.sSnapshot _ _ => true
  | _ => false

/-- An `UpdateReference` on the output OCI under the given name. -/
def isUpdateRefFor (n : String) : Event → Bool
  | Event.ociUpdateRef m _ => m == n
  | _ => false

/-- An image copy whose destination lies in the given output OCI
directory. -/
def isCopyIntoDir (dir : String) : Event → Bool
  | Event.imageCopy _ dst => strStarts dst ("oci:" ++ dir)
  | _ => false

/-- An environment in which every external collaborator succeeds, used
to instantiate theorems at concrete inputs. -/
def okEnv : Env :=
  { cacheLookup := fun _ => none
    importRes := fun _ => Except.ok ()
    createRes := fun _ => Except.ok ()
    restoreRes := fun _ _ => Except.ok ()
    snapshotRes := fun _ _ => Except.ok ()
    updateRefRes := fun _ _ => Except.ok ()
    deleteRefRes := fun _ => Except.ok ()
    mkdirRes := fun _ => Except.ok ()
    copyRes := fun _ _ => Except.ok ()
    unpackRes := fun _ _ => Except.ok ()
    initRes := fun _ => Except.ok ()
    acquireRes := fun u _ => Except.ok u
    tarRes := fun _ _ => Except.ok ()
    applyRes := fun _ => Except.ok ()
    runRes := fun _ => Except.ok ()
    mkSquashfsRes := Except.ok "/stacker/btrfs/tmp-squashfs"
    putBlobRes := fun _ => Except.ok ("sha256:layerblob", 10)
    openCacheRes := Except.ok ()
    lookupManifestRes := fun _ =>
      Except.ok (Manifest.mk (Descriptor.mk "" "sha256:oldcfg" 1)
        [Descriptor.mk "" "sha256:oldlayer" 2] [])
    lookupConfigRes := fun _ => Except.ok (ImageConfig.mk (RootFS.mk ["sha256:olddiff"]))
    putBlobJSONConfigRes := fun _ => Except.ok ("sha256:newcfg", 20)
    putBlobJSONManifestRes := fun _ => Except.ok ("sha256:newman", 30)
    bundleEntriesRes := Except.ok ["sha256_old.mtree"]
    renameRes := fun _ _ => Except.ok ()
    writeBundleMetaRes := Except.ok ()
    repackRes := fun _ => Except.ok ()
    resolveRefRes := fun _ => Except.ok (Descriptor.mk MediaTypeImageManifest "sha256:resolved" 40)
    mutateRes := fun _ => Except.ok
      (Descriptor.mk MediaTypeImageManifest "sha256:committed" 50,
       Descriptor.mk MediaTypeImageManifest "sha256:leafdesc" 60)
    cachePutRes := fun _ _ => Except.ok ()
    finalGCRes := Except.ok () }

/-! ## Replay lemmas -/

theorem lookupAssoc_cons {α : Type} (k : String) (v : α) (xs : List (String × α))
    (n : String) :
    lookupAssoc ((k, v) :: xs) n = if k == n then some v else lookupAssoc xs n := by
  unfold lookupAssoc
  rw [List.find?_cons]
  by_cases h : k == n
  · simp [h]
  · simp only [h]
    simp at h
    simp [h]

theorem lookupAssoc_filter_ne {α : Type} (xs : List (String × α)) (n : String) :
    lookupAssoc (xs.filter (fun p => p.1 != n)) n = none := by
  induction xs with
  | nil => rfl
  | cons x xs ih =>
    by_cases h : x.1 = n
    · simpa [List.filter_cons, h] using ih
    · rw [List.filter_cons, if_pos (by simp [h]), lookupAssoc_cons,
        if_neg (by simp [h])]
      exact ih

theorem lookupAssoc_filter_ne_other {α : Type} (xs : List (String × α))
    (m n : String) (hmn : m ≠ n) :
    lookupAssoc (xs.filter (fun p => p.1 != m)) n = lookupAssoc xs n := by
  induction xs with
  | nil => rfl
  | cons x xs ih =>
    by_cases h : x.1 = m
    · rw [List.filter_cons, if_neg (by simp [h]), lookupAssoc_cons,
        if_neg (by simp [h, hmn])]
      exact ih
    · rw [List.filter_cons, if_pos (by simp [h]), lookupAssoc_cons,
        lookupAssoc_cons]
      by_cases h2 : x.1 = n
      · simp [h2]
      · simp only [if_neg (by simp [h2] : ¬ (x.1 == n) = true)]
        exact ih

/-- Any reference present after replaying a trace was either written by
an `ociUpdateRef` event of that trace or was already present. -/
theorem replay_refs_origin (evs : List Event) :
    ∀ (st : OCIState) (n : String) (d : Descriptor),
      lookupAssoc (replay evs st).refs n = some d →
        Event.ociUpdateRef n d ∈ evs ∨ lookupAssoc st.refs n = some d := by
  induction evs with
  | nil =>
    intro st n d h
    right
    exact h
  | cons e rest ih =>
    intro st n d h
    rw [replay, List.foldl_cons] at h
    rcases ih (applyEvent st e) n d h with hin | hst
    · left
      exact List.mem_cons_of_mem _ hin
    · cases e with
      | ociUpdateRef m d2 =>
        rw [show applyEvent st (Event.ociUpdateRef m d2) =
            { st with refs := (m, d2) :: st.refs } from rfl] at hst
        simp only [lookupAssoc_cons] at hst
        by_cases hm : m == n
        · rw [if_pos hm] at hst
          left
          have hmn : m = n := by simpa using hm
          have hd : d2 = d := by simpa using hst
          have hev : Event.ociUpdateRef n d = Event.ociUpdateRef m d2 := by
            rw [hmn, hd]
          rw [hev]
          exact List.mem_cons_self _ _
        · rw [if_neg hm] at hst
          right
          exact hst
      | ociDeleteRef m =>
        rw [show applyEvent st (Event.ociDeleteRef m) =
            { st with refs := st.refs.filter (fun p => p.1 != m) } from rfl] at hst
        by_cases hm : m = n
        · rw [hm, lookupAssoc_filter_ne] at hst
          cases hst
        · right
          rw [lookupAssoc_filter_ne_other _ _ _ hm] at hst
          exact hst
      | putBlobJSONManifest dg m => right; exact hst
      | putBlobJSONConfig dg c => right; exact hst
      | sDelete a => right; exact hst
      | sCreate a => right; exact hst
      | sRestore a b => right; exact hst
      | sSnapshot a b => right; exact hst
      | imageCopy a b => right; exact hst
      | mkdirAll a => right; exact hst
      | layerBaseGC => right; exact hst
      | ociGC => right; exact hst
      | unpack a b => right; exact hst
      | umociInitRun a b => right; exact hst
      | tarExtract a b => right; exact hst
      | acquire a b => right; exact hst
      | importFiles a => right; exact hst
      | applyStep a => right; exact hst
      | runCmds a => right; exact hst
      | repack a => right; exact hst
      | resolveRef a => right; exact hst
      | mutateCommit a => right; exact hst
      | putBlob a => right; exact hst
      | rename a b => right; exact hst
      | writeBundleMetaRun a => right; exact hst
      | cachePut a b => right; exact hst
      | printLine a => right; exact hst

/-! ## No `UpdateReference` is emitted by the importer when the layer
type is unset (as `Build` constructs its `BaseLayerOpts`). -/

/-- Any `ociUpdateRef` event. -/
def isUpdateRefEv : Event → Bool
  | Event.ociUpdateRef _ _ => true
  | _ => false

theorem runSkopeo_no_updateRef (toImport : String) (o : BaseLayerOpts)
    (cto : Bool) (env : Env) :
    ((runSkopeo toImport o cto env).1.all (fun ev => !(isUpdateRefEv ev))) = true := by
  unfold runSkopeo
  cases htag : tagFromSkopeoUrl toImport with
  | error e => rfl
  | ok tag =>
    cases hmk : env.mkdirRes (layerBasesOCIDir o.Config) with
    | error e => simp [hmk, isUpdateRefEv]
    | ok u =>
      cases hcp : env.copyRes toImport
          ("oci:" ++ layerBasesOCIDir o.Config ++ ":" ++ tag) with
      | error e => simp [hmk, hcp, isUpdateRefEv]
      | ok u2 =>
        by_cases hc : (!cto) = true
        · simp [hmk, hcp, hc, isUpdateRefEv]
        · by_cases ht : (o.LayerType == "tar") = true
          · simp [hmk, hcp, hc, ht, isUpdateRefEv]
          · simp [hmk, hcp, hc, ht, isUpdateRefEv]

theorem extractOutput_no_updateRef (o : BaseLayerOpts) (env : Env)
    (hLT : o.LayerType = "") :
    ((extractOutput o env).1.all (fun ev => !(isUpdateRefEv ev))) = true := by
  unfold extractOutput
  cases htag : o.Layer.From.ParseTag with
  | error e => rfl
  | ok tag =>
    cases hunp : env.unpackRes tag (pathJoin2 o.Config.RootFSDir o.Target) with
    | error e => simp [hunp, isUpdateRefEv, tLift, tEv, tEvOk, tBind]
    | ok u =>
      have hsq : (o.LayerType == "squashfs" && !o.Layer.BuildOnly) = false := by
        rw [hLT]
        rfl
      simp [hunp, hsq, isUpdateRefEv, tLift, tEv, tEvOk, tBind, tPure]

theorem umociInit_no_updateRef (o : BaseLayerOpts) (env : Env) :
    ((umociInit o env).1.all (fun ev => !(isUpdateRefEv ev))) = true := rfl

theorem getTar_no_updateRef (o : BaseLayerOpts) (env : Env) :
    ((getTar o env).1.all (fun ev => !(isUpdateRefEv ev))) = true := by
  unfold getTar
  cases hmk : env.mkdirRes (pathJoin2 o.Config.StackerDir "layer-bases") with
  | error e => simp [hmk, isUpdateRefEv, tEv, tBind]
  | ok u =>
    cases hac : env.acquireRes o.Layer.From.Url
        (pathJoin2 o.Config.StackerDir "layer-bases") with
    | error e => simp [hmk, hac, isUpdateRefEv, tEv, tBind]
    | ok tar =>
      cases hin : env.initRes o.Name with
      | error e => simp [hmk, hac, hin, isUpdateRefEv, tEv, tBind, umociInit]
      | ok u2 =>
        cases htr : env.tarRes tar (pathJoin3 o.Config.RootFSDir o.Target "rootfs") with
        | error e => simp [hmk, hac, hin, htr, isUpdateRefEv, tEv, tBind, umociInit]
        | ok u3 => simp [hmk, hac, hin, htr, isUpdateRefEv, tEv, tBind, umociInit]

theorem getBuilt_no_updateRef (o : BaseLayerOpts) (sf : List (String × Layer))
    (env : Env) :
    ((getBuilt o sf env).1.all (fun ev => !(isUpdateRefEv ev))) = true := by
  unfold getBuilt
  cases hw : walkBase sf o.Layer.From.Tag (sf.length + 1) o.Layer with
  | error e => rfl
  | ok base =>
    by_cases hg : (base.From.Typ ≠ DockerType ∧ base.From.Typ ≠ OCIType) ∨
        base.BuildOnly = false
    · simp only [if_pos hg]
      rfl
    · simp only [if_neg hg]
      by_cases hg2 : base.BuildOnly = false
      · simp only [if_pos hg2]
        rfl
      · simp only [if_neg hg2]
        cases hpt : base.From.ParseTag with
        | error e => rfl
        | ok tag =>
          cases hcp : env.copyRes
              ("oci:" ++ layerBasesOCIDir o.Config ++ ":" ++ tag)
              ("oci:" ++ o.Config.OCIDir ++ ":" ++ tag) with
          | error e => simp [hcp, isUpdateRefEv, tEv, tBind]
          | ok u =>
            cases hdr : env.deleteRefRes tag with
            | error e => simp [hcp, hdr, isUpdateRefEv, tEv, tBind]
            | ok u2 => simp [hcp, hdr, isUpdateRefEv, tEv, tBind]

theorem getOCI_no_updateRef (o : BaseLayerOpts) (env : Env)
    (hLT : o.LayerType = "") :
    ((getOCI o env).1.all (fun ev => !(isUpdateRefEv ev))) = true := by
  unfold getOCI
  cases hrs : runSkopeo ("oci:" ++ o.Layer.From.Url) o (!o.Layer.BuildOnly) env with
  | mk tr r =>
    cases r with
    | error e =>
      simp only [bind_def, tBind_error]
      have := runSkopeo_no_updateRef ("oci:" ++ o.Layer.From.Url) o
        (!o.Layer.BuildOnly) env
      rw [hrs] at this
      exact this
    | ok u =>
      simp only [bind_def, tBind_ok, List.all_append]
      have h1 := runSkopeo_no_updateRef ("oci:" ++ o.Layer.From.Url) o
        (!o.Layer.BuildOnly) env
      rw [hrs] at h1
      have h2 := extractOutput_no_updateRef o env hLT
      rw [h1, h2]
      rfl

theorem getDocker_no_updateRef (o : BaseLayerOpts) (env : Env)
    (hLT : o.LayerType = "") :
    ((getDocker o env).1.all (fun ev => !(isUpdateRefEv ev))) = true := by
  unfold getDocker
  cases hrs : runSkopeo o.Layer.From.Url o
      (!o.Layer.BuildOnly && o.LayerType == "tar") env with
  | mk tr r =>
    cases r with
    | error e =>
      simp only [bind_def, tBind_error]
      have := runSkopeo_no_updateRef o.Layer.From.Url o
        (!o.Layer.BuildOnly && o.LayerType == "tar") env
      rw [hrs] at this
      exact this
    | ok u =>
      simp only [bind_def, tBind_ok, List.all_append]
      have h1 := runSkopeo_no_updateRef o.Layer.From.Url o
        (!o.Layer.BuildOnly && o.LayerType == "tar") env
      rw [hrs] at h1
      have h2 := extractOutput_no_updateRef o env hLT
      rw [h1, h2]
      rfl

/-- With the zero layer type `Build` passes, the whole base import emits
no `UpdateReference` at all. -/
theorem GetBaseLayer_no_updateRef (o : BaseLayerOpts)
    (sf : List (String × Layer)) (env : Env) (hLT : o.LayerType = "") :
    ((GetBaseLayer o sf env).1.all (fun ev => !(isUpdateRefEv ev))) = true := by
  unfold GetBaseLayer
  simp only [tEvOk, tBind_ok, List.all_cons, List.singleton_append]
  rw [Bool.and_eq_true]
  refine ⟨rfl, ?_⟩
  by_cases h1 : o.Layer.From.Typ = BuiltType
  · simp only [if_pos h1]
    exact getBuilt_no_updateRef o sf env
  · simp only [if_neg h1]
    by_cases h2 : o.Layer.From.Typ = TarType
    · simp only [if_pos h2]
      exact getTar_no_updateRef o env
    · simp only [if_neg h2]
      by_cases h3 : o.Layer.From.Typ = OCIType
      · simp only [if_pos h3]
        exact getOCI_no_updateRef o env hLT
      · simp only [if_neg h3]
        by_cases h4 : o.Layer.From.Typ = DockerType
        · simp only [if_pos h4]
          exact getDocker_no_updateRef o env hLT
        · simp only [if_neg h4]
          by_cases h5 : o.Layer.From.Typ = ScratchType
          · simp only [if_pos h5]
            exact umociInit_no_updateRef o env
          · simp only [if_neg h5]
            rfl

/-- Concrete importer options used to instantiate the C9 theorem: an
oci-sourced, non-build-only layer with squashfs layer type, so that the
run re-publishes a reference under the layer's name. -/
def c9Opts : BaseLayerOpts :=
  { Config := StackerConfig.mk "/sd" "/oci" "/roots", Name := "a",
    Target := ".working",
    Layer := Layer.mk (ImageSource.mk OCIType "base:tag1" "" false) false [],
    LayerType := "squashfs", Debug := false }

end Stacker

namespace Stacker

/-- C9: `GetBaseLayer` unconditionally deletes any existing output-OCI
reference named after the layer before dispatching on `from.type` — its
very first event is that deletion, whatever the source type (covering
all five types and the unknown-type error) — and consequently, whatever
the rest of that layer's build does or where it fails, any reference
under the layer's name left after replaying the importer's trace was
written by this run's own `UpdateReference`: the layer's previous
reference is gone from the output OCI. -/
theorem GetBaseLayer_deletes_ref_first (o : BaseLayerOpts)
    (sf : List (String × Layer)) (env : Env) :
    (GetBaseLayer o sf env).1.head? = some (Event.ociDeleteRef o.Name) ∧
    ∀ (st : OCIState) (d : Descriptor),
      lookupAssoc (replay (GetBaseLayer o sf env).1 st).refs o.Name = some d →
        Event.ociUpdateRef o.Name d ∈ (GetBaseLayer o sf env).1 := by
  have hshape : (GetBaseLayer o sf env).1 =
      Event.ociDeleteRef o.Name ::
        ((if o.Layer.From.Typ = BuiltType then getBuilt o sf env
          else if o.Layer.From.Typ = TarType then getTar o env
          else if o.Layer.From.Typ = OCIType then getOCI o env
          else if o.Layer.From.Typ = DockerType then getDocker o env
          else if o.Layer.From.Typ = ScratchType then getScratch o env
          else tError ("unknown layer type: " ++ o.Layer.From.Typ)).1) := rfl
  constructor
  · rw [hshape]
    rfl
  · intro st d h
    rw [hshape] at h ⊢
    rw [replay, List.foldl_cons] at h
    have hae : applyEvent st (Event.ociDeleteRef o.Name) =
        { st with refs := st.refs.filter (fun p => p.1 != o.Name) } := rfl
    rw [hae] at h
    rcases replay_refs_origin _ _ _ _ h with hin | hst
    · exact List.mem_cons_of_mem _ hin
    · simp only [lookupAssoc_filter_ne] at hst
      cases hst

/-- Whether a build result is a success. -/
def isOkResult : Except String Unit → Bool
  | Except.ok _ => true
  | Except.error _ => false

/-- Counterexample to C4 at a concrete input: with every layer built
successfully (an empty recipe) and the final GC failing, `Build` prints
the failure but returns the GC error — it does not return success as
the claim states. -/
theorem build_final_gc_failure_fails_build :
    Build (BuildArgs.mk (StackerConfig.mk "/sd" "/oci" "/roots") false false "" "tar")
        [] { okEnv with finalGCRes := Except.error "gc failed" } =
      ([Event.sDelete ".working", Event.ociGC,
        Event.printLine "final OCI GC failed: gc failed"],
       Except.error "gc failed") ∧
    isOkResult (Build
        (BuildArgs.mk (StackerConfig.mk "/sd" "/oci" "/roots") false false "" "tar")
        [] { okEnv with finalGCRes := Except.error "gc failed" }).2 = false :=
  ⟨rfl, by decide⟩

/-- C4 (amended): after all recipe layers have been processed
successfully, `Build` garbage-collects the output OCI; a failure of this
final GC is logged (a `final OCI GC failed` line is printed) and the GC
error is returned, so `Build` fails rather than returning success. -/
theorem build_final_gc_logged_and_returned (opts : BuildArgs)
    (sf : List (String × Layer)) (env : Env) (e : String)
    (hloop : (buildLoop opts sf env sf).2 = Except.ok ())
    (hgc : env.finalGCRes = Except.error e) :
    (Build opts sf env).2 = Except.error e ∧
      Event.printLine ("final OCI GC failed: " ++ e) ∈ (Build opts sf env).1 := by
  unfold Build
  rcases hb : buildLoop opts sf env sf with ⟨tr, r⟩
  have hr : r = Except.ok () := by
    rw [hb] at hloop
    exact hloop
  subst hr
  simp [tBind, tEvOk, hgc, List.mem_append]

/-- Witness for the amended C4 at a concrete input. -/
theorem build_final_gc_logged_and_returned_witness :
    ((buildLoop (BuildArgs.mk (StackerConfig.mk "/s" "/o" "/r") false false "" "tar")
        [] { okEnv with finalGCRes := Except.error "boom" } []).2 = Except.ok () ∧
      ({ okEnv with finalGCRes := Except.error "boom" } : Env).finalGCRes =
        Except.error "boom") ∧
    ((Build (BuildArgs.mk (StackerConfig.mk "/s" "/o" "/r") false false "" "tar")
        [] { okEnv with finalGCRes := Except.error "boom" }).2 = Except.error "boom" ∧
      Event.printLine ("final OCI GC failed: " ++ "boom") ∈
        (Build (BuildArgs.mk (StackerConfig.mk "/s" "/o" "/r") false false "" "tar")
          [] { okEnv with finalGCRes := Except.error "boom" }).1) :=
  ⟨⟨rfl, rfl⟩,
   build_final_gc_logged_and_returned
     (BuildArgs.mk (StackerConfig.mk "/s" "/o" "/r") false false "" "tar")
     [] { okEnv with finalGCRes := Except.error "boom" } "boom"
     rfl rfl⟩

/-- Witness for C9 at a concrete input: an oci layer whose squashfs
rewrite re-tags the name, so the reference found after replay is the one
this very run wrote. -/
theorem GetBaseLayer_deletes_ref_first_witness :
    (lookupAssoc (replay (GetBaseLayer c9Opts [] okEnv).1 (OCIState.mk [] [] [])).refs
        c9Opts.Name = some (Descriptor.mk MediaTypeImageManifest "sha256:newman" 30)) ∧
      Event.ociUpdateRef c9Opts.Name
          (Descriptor.mk MediaTypeImageManifest "sha256:newman" 30) ∈
        (GetBaseLayer c9Opts [] okEnv).1 :=
  ⟨by decide,
   (GetBaseLayer_deletes_ref_first c9Opts [] okEnv).2 (OCIState.mk [] [] [])
     (Descriptor.mk MediaTypeImageManifest "sha256:newman" 30) (by decide)⟩

/-- C7: on a build-cache hit the driver short-circuits the rest of the
pipeline: after the file import, a non-build-only layer gets the cached
descriptor written as the output-OCI reference under the layer's name,
a build-only layer gets the cached snapshot materialized under the
layer's name (a snapshot from the cached name, nothing when it is
already named after the layer), and in either case the layer's trace
contains no base-import event, no run command and no repack. -/
theorem buildLayer_cache_hit_short_circuits (opts : BuildArgs)
    (sf : List (String × Layer)) (name : String) (l : Layer) (env : Env)
    (entry : CacheEntry)
    (hhit : env.cacheLookup name = some entry)
    (himp : env.importRes name = Except.ok ()) :
    buildLayer opts sf name l env =
      (Event.importFiles name ::
        (if l.BuildOnly then
          (if entry.Name != name then [Event.sSnapshot entry.Name name] else [])
         else [Event.ociUpdateRef name entry.Blob]),
       (if l.BuildOnly then
          (if entry.Name != name then env.snapshotRes entry.Name name
           else Except.ok ())
        else env.updateRefRes name entry.Blob)) ∧
      ((buildLayer opts sf name l env).1.all
        (fun ev => !(isBaseImportEv ev || isRunEv ev || isRepackEv ev))) = true := by
  have main : buildLayer opts sf name l env =
      (Event.importFiles name ::
        (if l.BuildOnly then
          (if entry.Name != name then [Event.sSnapshot entry.Name name] else [])
         else [Event.ociUpdateRef name entry.Blob]),
       (if l.BuildOnly then
          (if entry.Name != name then env.snapshotRes entry.Name name
           else Except.ok ())
        else env.updateRefRes name entry.Blob)) := by
    unfold buildLayer
    by_cases hb : l.BuildOnly
    · by_cases hn : (entry.Name != name) = true
      · simp [himp, hhit, hb, hn, tEv, tBind, tPure]
      · simp [himp, hhit, hb, hn, tEv, tBind, tPure]
    · simp [himp, hhit, hb, tEv, tBind, tPure]
  refine ⟨main, ?_⟩
  rw [main]
  by_cases hb : l.BuildOnly
  · by_cases hn : (entry.Name != name) = true
    · simp [hb, hn, isBaseImportEv, isRunEv, isRepackEv]
    · simp [hb, hn, isBaseImportEv, isRunEv, isRepackEv]
  · simp [hb, isBaseImportEv, isRunEv, isRepackEv]

/-- The cache entry and environment used to instantiate the C7 theorem. -/
def c7Entry : CacheEntry :=
  CacheEntry.mk "a" (Descriptor.mk MediaTypeImageManifest "sha256:cached" 7)

def c7Env : Env :=
  { okEnv with cacheLookup := fun _ => some c7Entry }

def c7Layer : Layer := Layer.mk (ImageSource.mk ScratchType "" "" false) false []

def c7Args : BuildArgs :=
  BuildArgs.mk (StackerConfig.mk "/s" "/o" "/r") false false "" "tar"

/-- Witness for C7 at concrete inputs: a non-build-only layer published
from the cache, with the descriptor the cache stored. -/
theorem buildLayer_cache_hit_short_circuits_witness :
    (c7Env.cacheLookup "a" = some c7Entry ∧
      c7Env.importRes "a" = Except.ok ()) ∧
    buildLayer c7Args [] "a" c7Layer c7Env =
      (Event.importFiles "a" ::
        (if c7Layer.BuildOnly then
          (if c7Entry.Name != "a" then [Event.sSnapshot c7Entry.Name "a"] else [])
         else [Event.ociUpdateRef "a" c7Entry.Blob]),
       (if c7Layer.BuildOnly then
          (if c7Entry.Name != "a" then c7Env.snapshotRes c7Entry.Name "a"
           else Except.ok ())
        else c7Env.updateRefRes "a" c7Entry.Blob)) :=
  ⟨⟨rfl, rfl⟩,
   (buildLayer_cache_hit_short_circuits c7Args [] "a" c7Layer c7Env c7Entry
     rfl rfl).1⟩

/-- The malformed-OCI-URL layer of C6. -/
def c6Layer : Layer :=
  Layer.mk (ImageSource.mk OCIType "oci:foo:bar:baz:quux" "" false) false []

def c6Args : BuildArgs :=
  BuildArgs.mk (StackerConfig.mk "/s" "/o" "/r") false false "" "tar"

/-- Counterexample to C6 at a concrete input: with
`from.url = "oci:foo:bar:baz:quux"` the build does abort with the
bad-OCI-tag error, but only after `Storage.Delete(".working")` and
`Storage.Create(".working")` have already been performed for the layer,
so "no Create ... of a rootfs has been performed" is false. -/
theorem bad_oci_tag_creates_working_rootfs :
    buildLayer c6Args [] "a" c6Layer okEnv =
      ([Event.importFiles "a", Event.sDelete ".working", Event.sCreate ".working",
        Event.ociDeleteRef "a"],
       Except.error "bad OCI tag: oci:oci:foo:bar:baz:quux") ∧
    Event.sCreate ".working" ∈ (buildLayer c6Args [] "a" c6Layer okEnv).1 :=
  ⟨rfl, by decide⟩

/-- C6 (amended): for a layer whose `from.url` is the malformed OCI URL
`"oci:foo:bar:baz:quux"`, `tagFromSkopeoUrl` fails with the bad-OCI-tag
error (on the `oci:`-prefixed URL) and the build aborts before any
snapshot, restore or storage operation on a rootfs named after the
layer: the only storage operations performed for that layer are the
delete and create of the shared `.working` directory. -/
theorem buildLayer_bad_oci_tag_aborts (opts : BuildArgs)
    (sf : List (String × Layer)) (name : String) (env : Env)
    (tg : String) (ins bo : Bool) (rs : List String)
    (hmiss : env.cacheLookup name = none)
    (himp : env.importRes name = Except.ok ())
    (hcr : env.createRes ".working" = Except.ok ()) :
    (buildLayer opts sf name
        (Layer.mk (ImageSource.mk OCIType "oci:foo:bar:baz:quux" tg ins) bo rs) env).2 =
      Except.error "bad OCI tag: oci:oci:foo:bar:baz:quux" ∧
    ((buildLayer opts sf name
        (Layer.mk (ImageSource.mk OCIType "oci:foo:bar:baz:quux" tg ins) bo rs) env).1.filter
      isStorageEv) = [Event.sDelete ".working", Event.sCreate ".working"] := by
  have htrace : buildLayer opts sf name
      (Layer.mk (ImageSource.mk OCIType "oci:foo:bar:baz:quux" tg ins) bo rs) env =
      ([Event.importFiles name, Event.sDelete ".working", Event.sCreate ".working",
        Event.ociDeleteRef name],
       Except.error "bad OCI tag: oci:oci:foo:bar:baz:quux") := by
    unfold buildLayer
    rw [himp, hmiss, hcr]
    rfl
  rw [htrace]
  constructor
  · rfl
  · simp [isStorageEv]

/-- Witness for the amended C6 at a concrete input. -/
theorem buildLayer_bad_oci_tag_aborts_witness :
    (okEnv.cacheLookup "b" = none ∧ okEnv.importRes "b" = Except.ok () ∧
      okEnv.createRes ".working" = Except.ok ()) ∧
    ((buildLayer c6Args [] "b"
        (Layer.mk (ImageSource.mk OCIType "oci:foo:bar:baz:quux" "t" true) true ["x"]) okEnv).2 =
      Except.error "bad OCI tag: oci:oci:foo:bar:baz:quux" ∧
    ((buildLayer c6Args [] "b"
        (Layer.mk (ImageSource.mk OCIType "oci:foo:bar:baz:quux" "t" true) true ["x"]) okEnv).1.filter
      isStorageEv) = [Event.sDelete ".working", Event.sCreate ".working"]) :=
  ⟨⟨rfl, rfl, rfl⟩,
   buildLayer_bad_oci_tag_aborts c6Args [] "b" okEnv "t" true true ["x"] rfl rfl rfl⟩

/-- C8: a build-only layer that is rebuilt (cache miss) ends its
pipeline with `Storage.Delete(name)`, a snapshot of `.working` under
the layer's name and a cache entry carrying the zero descriptor; no
reference for that layer — indeed no reference at all — is written into
the output OCI during the layer's build (in particular none for a
squashfs-typed build-only layer, since the importer's squashfs rewrite
requires a non-build-only layer and `Build` passes an empty layer
type). -/
theorem buildLayer_buildonly_rebuild (opts : BuildArgs)
    (sf : List (String × Layer)) (name : String) (l : Layer) (env : Env)
    (hmiss : env.cacheLookup name = none)
    (himp : env.importRes name = Except.ok ())
    (hbo : l.BuildOnly = true)
    (hprep : (if (l.From.Typ == BuiltType) = true then
        env.restoreRes l.From.Tag ".working"
      else env.createRes ".working") = Except.ok ())
    (hbase : (GetBaseLayer (mkBaseOpts opts.Config name l) sf env).2 = Except.ok ())
    (happly : env.applyRes name = Except.ok ())
    (hrun : env.runRes name = Except.ok ())
    (hsnap : env.snapshotRes ".working" name = Except.ok ()) :
    buildLayer opts sf name l env =
      (Event.importFiles name :: Event.sDelete ".working" ::
        (if (l.From.Typ == BuiltType) = true then Event.sRestore l.From.Tag ".working"
         else Event.sCreate ".working") ::
        ((GetBaseLayer (mkBaseOpts opts.Config name l) sf env).1 ++
          (Event.applyStep name ::
            ((if l.Run.isEmpty then [] else [Event.runCmds name]) ++
             [Event.sDelete name, Event.sSnapshot ".working" name,
              Event.cachePut name zeroDescriptor]))),
       env.cachePutRes name zeroDescriptor) ∧
      ((buildLayer opts sf name l env).1.all (fun ev => !(isUpdateRefEv ev))) = true := by
  rcases hG : GetBaseLayer (mkBaseOpts opts.Config name l) sf env with ⟨gtr, gres⟩
  have hgres : gres = Except.ok () := by
    rw [hG] at hbase
    exact hbase
  subst hgres
  have main : buildLayer opts sf name l env =
      (Event.importFiles name :: Event.sDelete ".working" ::
        (if (l.From.Typ == BuiltType) = true then Event.sRestore l.From.Tag ".working"
         else Event.sCreate ".working") ::
        (gtr ++
          (Event.applyStep name ::
            ((if l.Run.isEmpty then [] else [Event.runCmds name]) ++
             [Event.sDelete name, Event.sSnapshot ".working" name,
              Event.cachePut name zeroDescriptor]))),
       env.cachePutRes name zeroDescriptor) := by
    unfold buildLayer
    by_cases hft : (l.From.Typ == BuiltType) = true
    · rw [if_pos hft] at hprep
      by_cases hre : l.Run.isEmpty
      · simp [himp, hmiss, hbo, hft, hprep, hG, happly, hrun, hsnap, hre,
          tEv, tEvOk, tBind, tPure]
      · simp [himp, hmiss, hbo, hft, hprep, hG, happly, hrun, hsnap, hre,
          tEv, tEvOk, tBind, tPure]
    · rw [if_neg hft] at hprep
      by_cases hre : l.Run.isEmpty
      · simp [himp, hmiss, hbo, hft, hprep, hG, happly, hrun, hsnap, hre,
          tEv, tEvOk, tBind, tPure]
      · simp [himp, hmiss, hbo, hft, hprep, hG, happly, hrun, hsnap, hre,
          tEv, tEvOk, tBind, tPure]
  refine ⟨main, ?_⟩
  rw [main]
  have hng : (gtr.all (fun ev => !(isUpdateRefEv ev))) = true := by
    have := GetBaseLayer_no_updateRef (mkBaseOpts opts.Config name l) sf env rfl
    rw [hG] at this
    exact this
  have hng2 : ∀ x ∈ gtr, isUpdateRefEv x = false := by
    intro x hx
    have h3 := List.all_eq_true.mp hng x hx
    simpa using h3
  by_cases hft : (l.From.Typ == BuiltType) = true
  · by_cases hre : l.Run.isEmpty
    · simp [hft, hre, isUpdateRefEv]
      try exact hng2
    · simp [hft, hre, isUpdateRefEv]
      try exact hng2
  · by_cases hre : l.Run.isEmpty
    · simp [hft, hre, isUpdateRefEv]
      try exact hng2
    · simp [hft, hre, isUpdateRefEv]
      try exact hng2

/-- Witness for C8 at a concrete input: a build-only scratch layer
rebuilt with every collaborator succeeding. -/
theorem buildLayer_buildonly_rebuild_witness :
    (okEnv.cacheLookup "bo" = none ∧ okEnv.importRes "bo" = Except.ok () ∧
      (Layer.mk (ImageSource.mk ScratchType "" "" false) true []).BuildOnly = true ∧
      okEnv.createRes ".working" = Except.ok () ∧
      (GetBaseLayer (mkBaseOpts c6Args.Config "bo"
        (Layer.mk (ImageSource.mk ScratchType "" "" false) true [])) [] okEnv).2 =
        Except.ok () ∧
      okEnv.applyRes "bo" = Except.ok () ∧ okEnv.runRes "bo" = Except.ok () ∧
      okEnv.snapshotRes ".working" "bo" = Except.ok ()) ∧
    ((buildLayer c6Args [] "bo"
        (Layer.mk (ImageSource.mk ScratchType "" "" false) true []) okEnv).1.all
      (fun ev => !(isUpdateRefEv ev))) = true :=
  ⟨⟨rfl, rfl, rfl, rfl, rfl, rfl, rfl, rfl⟩,
   (buildLayer_buildonly_rebuild c6Args [] "bo"
     (Layer.mk (ImageSource.mk ScratchType "" "" false) true []) okEnv
     rfl rfl rfl rfl rfl rfl rfl rfl).2⟩

/-- The oci-sourced, non-build-only importer options exactly as `Build`
constructs them (layer type left at its zero value), used to refute C3. -/
def c3Opts : BaseLayerOpts :=
  mkBaseOpts (StackerConfig.mk "/sd" "/oci" "/roots") "a"
    (Layer.mk (ImageSource.mk OCIType "base:t1" "" false) false [])

/-- Counterexample to C3 at a concrete input: for a non-build-only oci
layer imported with the options `Build` constructs, the base import
copies into the layer-base cache and unpacks, but never copies into the
output OCI layout (the copy is guarded by `o.LayerType == "tar"` and
`Build` leaves `LayerType` empty). -/
theorem getOCI_no_output_copy :
    (getOCI c3Opts okEnv).2 = Except.ok () ∧
    Event.imageCopy "oci:base:t1" "oci:/sd/layer-bases/oci:t1" ∈
      (getOCI c3Opts okEnv).1 ∧
    Event.unpack "t1" "/roots/.working" ∈ (getOCI c3Opts okEnv).1 ∧
    ((getOCI c3Opts okEnv).1.all (fun ev => !(isCopyIntoDir "/oci" ev))) = true :=
  ⟨rfl, by decide, by decide, by decide⟩

/-- C3 (amended): for a layer with `from.type == oci`, the base import
first copies the image from the local `oci:<url>` into the layer-base
cache; then, only if the layer is not build-only AND the importer's
layer type is tar, copies it further into the output OCI layout; and
only then unpacks it into the bundle (deleting the base tag after the
unpack). -/
theorem getOCI_copy_order (o : BaseLayerOpts) (env : Env) (tag : String)
    (htyp : o.Layer.From.Typ = OCIType)
    (hsq : o.LayerType ≠ "squashfs")
    (htag : tagFromSkopeoUrl ("oci:" ++ o.Layer.From.Url) = Except.ok tag)
    (hmk : env.mkdirRes (layerBasesOCIDir o.Config) = Except.ok ())
    (hcp1 : env.copyRes ("oci:" ++ o.Layer.From.Url)
      ("oci:" ++ layerBasesOCIDir o.Config ++ ":" ++ tag) = Except.ok ())
    (hcp2 : env.copyRes ("oci:" ++ layerBasesOCIDir o.Config ++ ":" ++ tag)
      ("oci:" ++ o.Config.OCIDir ++ ":" ++ tag) = Except.ok ())
    (hunp : env.unpackRes tag (pathJoin2 o.Config.RootFSDir o.Target) = Except.ok ()) :
    getOCI o env =
      (Event.mkdirAll (layerBasesOCIDir o.Config) ::
        Event.imageCopy ("oci:" ++ o.Layer.From.Url)
          ("oci:" ++ layerBasesOCIDir o.Config ++ ":" ++ tag) ::
        ((if (!o.Layer.BuildOnly && o.LayerType == "tar") = true then
            [Event.imageCopy ("oci:" ++ layerBasesOCIDir o.Config ++ ":" ++ tag)
              ("oci:" ++ o.Config.OCIDir ++ ":" ++ tag)]
          else []) ++
         [Event.layerBaseGC,
          Event.unpack tag (pathJoin2 o.Config.RootFSDir o.Target),
          Event.ociDeleteRef tag]),
       Except.ok ()) := by
  have hpt : o.Layer.From.ParseTag = Except.ok tag := by
    unfold ImageSource.ParseTag
    rw [htyp, if_neg (show ¬ (OCIType = DockerType) by decide), if_pos rfl]
    exact htag
  have hsqb : (o.LayerType == "squashfs") = false := by
    simp [hsq]
  unfold getOCI runSkopeo extractOutput
  by_cases hb : o.Layer.BuildOnly
  · by_cases ht : (o.LayerType == "tar") = true
    · simp [htag, hmk, hcp1, hcp2, hunp, hpt, hsqb, hb, ht,
        tEv, tEvOk, tBind, tPure, tLift]
    · simp [htag, hmk, hcp1, hcp2, hunp, hpt, hsqb, hb, ht,
        tEv, tEvOk, tBind, tPure, tLift]
  · by_cases ht : (o.LayerType == "tar") = true
    · simp [htag, hmk, hcp1, hcp2, hunp, hpt, hsqb, hb, ht,
        tEv, tEvOk, tBind, tPure, tLift]
    · simp [htag, hmk, hcp1, hcp2, hunp, hpt, hsqb, hb, ht,
        tEv, tEvOk, tBind, tPure, tLift]

/-- Witness for the amended C3 at a concrete input (a tar-typed,
non-build-only oci layer, where the output copy does happen between the
cache copy and the unpack). -/
theorem getOCI_copy_order_witness :
    ((c3Opts.Layer.From.Typ = OCIType ∧ ("tar" : String) ≠ "squashfs" ∧
      tagFromSkopeoUrl ("oci:" ++ c3Opts.Layer.From.Url) = Except.ok "t1") ∧
      (okEnv.mkdirRes (layerBasesOCIDir c3Opts.Config) = Except.ok () ∧
       okEnv.unpackRes "t1" (pathJoin2 c3Opts.Config.RootFSDir c3Opts.Target) =
         Except.ok ())) ∧
    getOCI { c3Opts with LayerType := "tar" } okEnv =
      (Event.mkdirAll (layerBasesOCIDir c3Opts.Config) ::
        Event.imageCopy ("oci:" ++ c3Opts.Layer.From.Url)
          ("oci:" ++ layerBasesOCIDir c3Opts.Config ++ ":" ++ "t1") ::
        ((if (!c3Opts.Layer.BuildOnly && ("tar" == "tar")) = true then
            [Event.imageCopy ("oci:" ++ layerBasesOCIDir c3Opts.Config ++ ":" ++ "t1")
              ("oci:" ++ c3Opts.Config.OCIDir ++ ":" ++ "t1")]
          else []) ++
         [Event.layerBaseGC,
          Event.unpack "t1" (pathJoin2 c3Opts.Config.RootFSDir c3Opts.Target),
          Event.ociDeleteRef "t1"]),
       Except.ok ()) :=
  ⟨⟨⟨rfl, by decide, rfl⟩, ⟨rfl, rfl⟩⟩,
   getOCI_copy_order { c3Opts with LayerType := "tar" } okEnv "t1"
     rfl (by decide) rfl rfl rfl rfl rfl⟩

/-- The recipe layer and build arguments for the squashfs build
attempt of C2. -/
def c2Layer : Layer :=
  Layer.mk (ImageSource.mk DockerType "docker://example/app:v1" "" false) false []

def c2Args : BuildArgs :=
  BuildArgs.mk (StackerConfig.mk "/sd" "/oci" "/roots") false false "" "squashfs"

/-- Importer options with the squashfs layer type set, as the squashfs
rewrite path of `extractOutput` expects them (but `Build` never
produces). -/
def c2ExOpts : BaseLayerOpts :=
  { Config := StackerConfig.mk "/sd" "/oci" "/roots", Name := "a",
    Target := ".working",
    Layer := Layer.mk (ImageSource.mk OCIType "base:tag1" "" false) false [],
    LayerType := "squashfs", Debug := false }

/-- C2 (code-bug evidence). First: a build of a non-build-only docker
layer with `layerType == squashfs` fails with `unknown layer type:
squashfs` — `Build` leaves `BaseLayerOpts.LayerType` at its zero value,
so the squashfs rewrite never runs, and its repack switch accepts only
tar — hence no output reference as the claim describes can be produced
by `Build`. Second: the squashfs rewrite itself (`extractOutput` with
layer type squashfs on a non-build-only layer, every collaborator
succeeding) does tag, under the layer's name, a manifest whose only
layer is the squashfs blob (media type
`application/vnd.oci.image.layer.squashfs`) and whose config's
`RootFS.DiffIDs` is exactly the one-element list of that blob's digest,
as the claim states. -/
theorem squashfs_claim_code_bug :
    (Build c2Args [("a", c2Layer)] okEnv).2 =
      Except.error "unknown layer type: squashfs" ∧
    (∀ (o : BaseLayerOpts) (env : Env) (tag tmp ld cd md : String)
      (ls cs ms : Nat) (m0 : Manifest) (c0 : ImageConfig) (entries : List String),
      o.LayerType = "squashfs" →
      o.Layer.BuildOnly = false →
      o.Layer.From.ParseTag = Except.ok tag →
      env.unpackRes tag (pathJoin2 o.Config.RootFSDir o.Target) = Except.ok () →
      env.mkSquashfsRes = Except.ok tmp →
      env.putBlobRes tmp = Except.ok (ld, ls) →
      env.openCacheRes = Except.ok () →
      env.lookupManifestRes ((tagFromSkopeoUrl o.Layer.From.Url).toOption.getD "") =
        Except.ok m0 →
      env.lookupConfigRes m0.Config = Except.ok c0 →
      env.putBlobJSONConfigRes { c0 with RootFS := RootFS.mk [ld] } =
        Except.ok (cd, cs) →
      env.putBlobJSONManifestRes { m0 with
        Layers := [Descriptor.mk MediaTypeLayerSquashfs ld ls]
        Config := Descriptor.mk MediaTypeImageConfig cd cs } = Except.ok (md, ms) →
      env.updateRefRes o.Name (Descriptor.mk MediaTypeImageManifest md ms) =
        Except.ok () →
      env.bundleEntriesRes = Except.ok entries →
      (∀ s d, env.renameRes s d = Except.ok ()) →
      env.writeBundleMetaRes = Except.ok () →
      (extractOutput o env).2 = Except.ok () ∧
      ∀ st : OCIState,
        lookupAssoc (replay (extractOutput o env).1 st).refs o.Name =
          some (Descriptor.mk MediaTypeImageManifest md ms) ∧
        lookupAssoc (replay (extractOutput o env).1 st).manifests md =
          some { m0 with
            Layers := [Descriptor.mk MediaTypeLayerSquashfs ld ls]
            Config := Descriptor.mk MediaTypeImageConfig cd cs } ∧
        lookupAssoc (replay (extractOutput o env).1 st).configs cd =
          some { c0 with RootFS := RootFS.mk [ld] }) := by
  constructor
  · rfl
  · intro o env tag tmp ld cd md ls cs ms m0 c0 entries hsq hbo hpt hunp hmk hpb
      hoc hlm hlc hpc hpm hur hbe hrn hwb
    have hcond : (o.LayerType == "squashfs" && !o.Layer.BuildOnly) = true := by
      rw [hsq, hbo]
      rfl
    cases hu : updateBundleMtree (pathJoin2 o.Config.RootFSDir ".working") entries
        (Descriptor.mk MediaTypeImageManifest md ms) with
    | nil =>
      constructor
      · simp [extractOutput, updateBundleMtreeM, tPutConfig, tPutManifest,
          hpt, hunp, hcond, hpb, hoc, hlm, hlc, hpc, hpm, hur, hbe, hwb, hmk, hu,
          tEv, tEvOk, tBind, tPure, tLift]
      · intro st
        refine ⟨?_, ?_, ?_⟩ <;>
          simp [extractOutput, updateBundleMtreeM, tPutConfig, tPutManifest,
            hpt, hunp, hcond, hpb, hoc, hlm, hlc, hpc, hpm, hur, hbe, hwb, hmk, hu,
            tEv, tEvOk, tBind, tPure, tLift, replay, applyEvent, lookupAssoc_cons]
    | cons p rest =>
      rcases p with ⟨s, d⟩
      constructor
      · simp [extractOutput, updateBundleMtreeM, tPutConfig, tPutManifest,
          hpt, hunp, hcond, hpb, hoc, hlm, hlc, hpc, hpm, hur, hbe, hwb, hmk, hu, hrn,
          tEv, tEvOk, tBind, tPure, tLift]
      · intro st
        refine ⟨?_, ?_, ?_⟩ <;>
          simp [extractOutput, updateBundleMtreeM, tPutConfig, tPutManifest,
            hpt, hunp, hcond, hpb, hoc, hlm, hlc, hpc, hpm, hur, hbe, hwb, hmk, hu, hrn,
            tEv, tEvOk, tBind, tPure, tLift, replay, applyEvent, lookupAssoc_cons]

/-- Witness for C2's second part at a concrete input: the squashfs
rewrite applied with every collaborator succeeding. -/
theorem squashfs_claim_code_bug_witness :
    (c2ExOpts.LayerType = "squashfs" ∧ c2ExOpts.Layer.BuildOnly = false ∧
      c2ExOpts.Layer.From.ParseTag = Except.ok "tag1") ∧
    ((extractOutput c2ExOpts okEnv).2 = Except.ok () ∧
      lookupAssoc (replay (extractOutput c2ExOpts okEnv).1 (OCIState.mk [] [] [])).refs
          "a" = some (Descriptor.mk MediaTypeImageManifest "sha256:newman" 30) ∧
      lookupAssoc (replay (extractOutput c2ExOpts okEnv).1 (OCIState.mk [] [] [])).manifests
          "sha256:newman" =
        some (Manifest.mk (Descriptor.mk MediaTypeImageConfig "sha256:newcfg" 20)
          [Descriptor.mk MediaTypeLayerSquashfs "sha256:layerblob" 10] []) ∧
      lookupAssoc (replay (extractOutput c2ExOpts okEnv).1 (OCIState.mk [] [] [])).configs
          "sha256:newcfg" = some (ImageConfig.mk (RootFS.mk ["sha256:layerblob"]))) := by
  refine ⟨⟨rfl, rfl, rfl⟩, ?_⟩
  have h := squashfs_claim_code_bug.2 c2ExOpts okEnv "tag1"
    "/stacker/btrfs/tmp-squashfs" "sha256:layerblob" "sha256:newcfg" "sha256:newman"
    10 20 30
    (Manifest.mk (Descriptor.mk "" "sha256:oldcfg" 1)
      [Descriptor.mk "" "sha256:oldlayer" 2] [])
    (ImageConfig.mk (RootFS.mk ["sha256:olddiff"])) ["sha256_old.mtree"]
    rfl rfl rfl rfl rfl rfl rfl rfl rfl rfl rfl rfl rfl (fun s d => rfl) rfl
  exact ⟨h.1, (h.2 (OCIState.mk [] [] [])).1, (h.2 (OCIState.mk [] [] [])).2.1,
    (h.2 (OCIState.mk [] [] [])).2.2⟩

end Stacker

namespace Stacker

/-- C1: `ComputeAggregateHash(manifest, descriptor)` returns the
lowercase hex SHA-256 digest of the concatenated stringified digests of
`manifest.Layers[0..k]`, where `k` is the first index whose layer digest
matches the descriptor's digest; when no layer matches (in particular
for an empty layer list, where `findIdx?` is `none`), it fails with the
`couldn't find descriptor ... in manifest ...` error and returns no
hash. -/
theorem ComputeAggregateHash_spec (m : Manifest) (d : Descriptor) :
    (∀ k, m.Layers.findIdx? (fun l => l.Digest == d.Digest) = some k →
      ComputeAggregateHash m d =
        .ok (sha256hex (((m.Layers.take (k + 1)).map (fun l => strBytes l.Digest)).flatten)))
    ∧ (m.Layers.findIdx? (fun l => l.Digest == d.Digest) = none →
      ComputeAggregateHash m d =
        .error ("couldn't find descriptor " ++ d.Digest ++ " in manifest " ++
          annotationsGetD m.Annotations "org.opencontainers.image.ref.name")) := by
  constructor
  · intro k hk
    unfold ComputeAggregateHash
    rw [aggLoop_eq_findIdx, hk]
    simp
  · intro hn
    unfold ComputeAggregateHash
    rw [aggLoop_eq_findIdx, hn]
    simp

/-- Witness for C1 at concrete inputs: a two-layer manifest whose second
layer matches the descriptor (first matching index 1, hashing both
digests), and the empty manifest, which fails. -/
theorem ComputeAggregateHash_spec_witness :
    (List.findIdx? (fun l => l.Digest == "sha256:bb")
        [Descriptor.mk "" "sha256:aa" 1, Descriptor.mk "" "sha256:bb" 2] = some 1 ∧
      ComputeAggregateHash
        (Manifest.mk zeroDescriptor
          [Descriptor.mk "" "sha256:aa" 1, Descriptor.mk "" "sha256:bb" 2] [])
        (Descriptor.mk "" "sha256:bb" 2) =
        .ok (sha256hex ((([Descriptor.mk "" "sha256:aa" 1,
            Descriptor.mk "" "sha256:bb" 2].take 2).map
            (fun l => strBytes l.Digest)).flatten)))
    ∧ (List.findIdx? (fun l : Descriptor => l.Digest == "sha256:bb") [] = none ∧
      ComputeAggregateHash (Manifest.mk zeroDescriptor [] [])
        (Descriptor.mk "" "sha256:bb" 2) =
        .error ("couldn't find descriptor " ++ "sha256:bb" ++ " in manifest " ++
          annotationsGetD [] "org.opencontainers.image.ref.name")) :=
  ⟨⟨by decide,
    (ComputeAggregateHash_spec
      (Manifest.mk zeroDescriptor
        [Descriptor.mk "" "sha256:aa" 1, Descriptor.mk "" "sha256:bb" 2] [])
      (Descriptor.mk "" "sha256:bb" 2)).1 1 (by decide)⟩,
   ⟨by decide,
    (ComputeAggregateHash_spec (Manifest.mk zeroDescriptor [] [])
      (Descriptor.mk "" "sha256:bb" 2)).2 (by decide)⟩⟩

end Stacker

namespace Stacker

/-- C5: for every input string, `tagFromSkopeoUrl` behaves exactly as the
spec describes: for a docker-prefixed URL it returns the basename of the
URL path taken up to an optional `:tag` suffix, or, when the path is
empty, the host portion before any `:port`, and it fails with the URL
parser's error (BadURL) when the URL does not parse; for an
oci-prefixed string it returns the third colon-delimited field, failing
with a bad-OCI-tag error whenever the field count is not exactly three;
any other scheme fails with an invalid-image-URL error. -/
theorem tagFromSkopeoUrl_matches_spec (s : String) :
    tagFromSkopeoUrl s = tagFromSkopeoUrlSpec s := by
  unfold tagFromSkopeoUrl tagFromSkopeoUrlSpec
  by_cases h1 : strStarts s "docker"
  · cases hu : urlParse s with
    | error e => simp [h1, hu]
    | ok url => by_cases h2 : url.Path = "" <;> simp [h1, hu, h2]
  · by_cases h3 : strStarts s "oci"
    · by_cases h4 : (strSplit s ":").length = 3 <;> simp [h1, h3, h4]
    · simp [h1, h3]

/-- C10: for every bundle directory listing, `updateBundleMtree` renames
at most one file, namely the first directory entry whose name ends in
`".mtree"`, to the new descriptor's digest string with the first `':'`
replaced by `'_'` plus a `".mtree"` suffix; when no entry ends in
`".mtree"` it performs no rename at all (success without modification). -/
theorem updateBundleMtree_renames_first_mtree (rootPath : String)
    (entries : List String) (newPath : Descriptor) :
    updateBundleMtree rootPath entries newPath =
      ((entries.find? (fun fi => strEnds fi ".mtree")).map
        (fun fi => (pathJoin2 rootPath fi,
          pathJoin2 rootPath (replaceFirstColon newPath.Digest ++ ".mtree")))).toList
    ∧ (updateBundleMtree rootPath entries newPath).length ≤ 1 := by
  have main : updateBundleMtree rootPath entries newPath =
      ((entries.find? (fun fi => strEnds fi ".mtree")).map
        (fun fi => (pathJoin2 rootPath fi,
          pathJoin2 rootPath (replaceFirstColon newPath.Digest ++ ".mtree")))).toList := by
    unfold updateBundleMtree mtreeTargetName
    induction entries with
    | nil => rfl
    | cons fi rest ih =>
      by_cases h : strEnds fi ".mtree"
      · simp [updateBundleMtreeLoop, h, List.find?_cons_of_pos]
      · rw [updateBundleMtreeLoop, if_neg (by simp [h]), ih,
          List.find?_cons_of_neg _ (by simp [h])]
  refine ⟨main, ?_⟩
  rw [main]
  cases entries.find? (fun fi => strEnds fi ".mtree") <;> simp

end Stacker
